import Mathlib

set_option maxRecDepth 2000000

/-!
Shallow embedding of the woffTools WOFF 1.0 codec and validator
(`Lib/woffTools/__init__.py` and `Lib/woffTools/tools/validate.py`).

Byte strings are modelled as `List Nat` (one entry per byte, values < 256).
zlib and the XML library (`xml.etree.ElementTree`) are external collaborators
of the repository; they are modelled by an explicit `Ext` record of functions
so that theorems can either quantify over their behaviour or instantiate a
concrete representative.  A Python exception escaping a function is modelled
by `Except`: `.error` is a raised exception, `.ok` a normal return.
-/

namespace Woff

abbrev Bytes := List Nat

/-- Big-endian 2-byte encoding, as `struct.pack(">H", n)` (values reduced
mod 2^16; all packed values in this development stay below the bound). -/
def u16be (n : Nat) : Bytes := [n / 256 % 256, n % 256]

/-- Big-endian 4-byte encoding, as `struct.pack(">L", n)`. -/
def u32be (n : Nat) : Bytes :=
  [n / 16777216 % 256, n / 65536 % 256, n / 256 % 256, n % 256]

/-- Big-endian decoding of a byte list, as `struct.unpack`. -/
def beToNat (bs : Bytes) : Nat := bs.foldl (fun a b => a * 256 + b) 0

/-- Read `k` bytes at position `i` as a big-endian number. -/
def beAt (data : Bytes) (i k : Nat) : Nat := beToNat ((data.drop i).take k)

/-- The signed reading `struct.unpack(">l", ...)` of 4 bytes: a 32-bit
two's-complement value. -/
def signedOf (n : Nat) : Int :=
  if n < 2147483648 then (n : Int) else (n : Int) - 4294967296

/-- WOFF header record (`headerFormat` in validate.py / `woffHeaderFormat`
in `__init__.py`, 44 bytes). -/
structure WoffHeader where
  signature : Bytes
  flavor : Bytes
  length : Nat
  numTables : Nat
  reserved : Nat
  totalSfntSize : Nat
  majorVersion : Nat
  minorVersion : Nat
  metaOffset : Nat
  metaLength : Nat
  metaOrigLength : Nat
  privOffset : Nat
  privLength : Nat
deriving DecidableEq

/-- WOFF table directory entry (`directoryFormat` /
`woffDirectoryEntryFormat`, 20 bytes). -/
structure DirEntry where
  tag : Bytes
  offset : Nat
  compLength : Nat
  origLength : Nat
  origChecksum : Nat
deriving DecidableEq

def headerSize : Nat := 44
def directorySize : Nat := 20
def sfntHeaderSize : Nat := 12
def sfntDirectoryEntrySize : Nat := 16

/-- `struct.pack("4s", s)`: truncate or zero-pad to exactly 4 bytes. -/
def fix4 (bs : Bytes) : Bytes := bs.take 4 ++ List.replicate (4 - bs.length) 0

/-- `structPack(headerFormat, ...)`. -/
def packHeader (h : WoffHeader) : Bytes :=
  fix4 h.signature ++ fix4 h.flavor ++ u32be h.length ++ u16be h.numTables ++
  u16be h.reserved ++ u32be h.totalSfntSize ++ u16be h.majorVersion ++
  u16be h.minorVersion ++ u32be h.metaOffset ++ u32be h.metaLength ++
  u32be h.metaOrigLength ++ u32be h.privOffset ++ u32be h.privLength

/-- `structPack(directoryFormat, ...)`. -/
def packDirEntry (e : DirEntry) : Bytes :=
  fix4 e.tag ++ u32be e.offset ++ u32be e.compLength ++
  u32be e.origLength ++ u32be e.origChecksum

/-- `structUnpack(headerFormat, data)`: `none` models the `struct.error`
raised when fewer than 44 bytes are supplied. -/
def unpackHeaderOpt (data : Bytes) : Option WoffHeader :=
  if headerSize ≤ data.length then
    some {
      signature := data.take 4
      flavor := (data.drop 4).take 4
      length := beAt data 8 4
      numTables := beAt data 12 2
      reserved := beAt data 14 2
      totalSfntSize := beAt data 16 4
      majorVersion := beAt data 20 2
      minorVersion := beAt data 22 2
      metaOffset := beAt data 24 4
      metaLength := beAt data 28 4
      metaOrigLength := beAt data 32 4
      privOffset := beAt data 36 4
      privLength := beAt data 40 4 }
  else none

/-- Unpack one 20-byte directory entry starting at offset `i`. -/
def unpackDirEntryOpt (data : Bytes) (i : Nat) : Option DirEntry :=
  if i + directorySize ≤ data.length then
    some {
      tag := (data.drop i).take 4
      offset := beAt data (i + 4) 4
      compLength := beAt data (i + 8) 4
      origLength := beAt data (i + 12) 4
      origChecksum := beAt data (i + 16) 4 }
  else none

/-- `unpackDirectory` (validate.py): header then `numTables` entries;
`none` models a raised `struct.error`. -/
def unpackDirectoryOpt (data : Bytes) : Option (List DirEntry) := do
  let h ← unpackHeaderOpt data
  (List.range h.numTables).mapM fun i =>
    unpackDirEntryOpt data (headerSize + directorySize * i)

/-- Lexicographic (byte-wise) string comparison, as Python compares `str`. -/
def bytesLe (a b : Bytes) : Bool :=
  match a, b with
  | [], _ => true
  | _ :: _, [] => false
  | x :: xs, y :: ys => if x < y then true else if y < x then false else bytesLe xs ys

/-- Stable insertion sort by a boolean `le`, modelling Python `sorted`
(which is stable). -/
def insertLe {α : Type} (le : α → α → Bool) (x : α) : List α → List α
  | [] => [x]
  | y :: ys => if le y x then y :: insertLe le x ys else x :: y :: ys

def sortByLe {α : Type} (le : α → α → Bool) : List α → List α
  | [] => []
  | x :: xs => insertLe le x (sortByLe le xs)

/-- Association-list update with Python `dict` semantics: replace the
existing binding in place, otherwise append. -/
def dictInsert {α β : Type} [DecidableEq α] (k : α) (v : β) :
    List (α × β) → List (α × β)
  | [] => [(k, v)]
  | (k', v') :: rest =>
      if k' = k then (k, v) :: rest else (k', v') :: dictInsert k v rest

def dictGet {α β : Type} [DecidableEq α] (m : List (α × β)) (k : α) (dflt : β) : β :=
  match m with
  | [] => dflt
  | (k', v) :: rest => if k' = k then v else dictGet rest k dflt

def dictHasKey {α β : Type} [DecidableEq α] (m : List (α × β)) (k : α) : Bool :=
  match m with
  | [] => false
  | (k', _) :: rest => k' = k || dictHasKey rest k

end Woff

namespace Woff

/-- XML element tree, modelling the fragment of `xml.etree.ElementTree`
the repository uses: a tag, an attribute list (document order), optional
text content, and child elements. -/
inductive Xml where
  | elem (tag : String) (attrib : List (String × String))
         (text : Option String) (children : List Xml)

def Xml.tag : Xml → String
  | .elem t _ _ _ => t

def Xml.attrib : Xml → List (String × String)
  | .elem _ a _ _ => a

def Xml.text : Xml → Option String
  | .elem _ _ t _ => t

def Xml.children : Xml → List Xml
  | .elem _ _ _ c => c

/-- `element.attrib.get(key, dflt)`. -/
def Xml.attribGet (e : Xml) (key dflt : String) : String :=
  dictGet e.attrib key dflt

def Xml.hasAttrib (e : Xml) (key : String) : Bool :=
  dictHasKey e.attrib key

/-- Python whitespace for `str.strip()`. -/
def isPySpace (c : Char) : Bool :=
  c = ' ' ∨ c = '\t' ∨ c = '\n' ∨ c = '\r' ∨ c = '\x0b' ∨ c = '\x0c'

/-- Python's `s.strip()` truthiness: some non-whitespace character. -/
def stripTruthy (s : String) : Bool := s.data.any (fun c => !isPySpace c)

/-- Python's `text is not None and text.strip()` truthiness. -/
def textNonEmpty (t : Option String) : Bool :=
  match t with
  | none => false
  | some s => stripTruthy s

/-- External collaborators: zlib (`compress` at the writer's level /
`decompress`, where `none` models a raised `zlib.error`) and
`ElementTree.fromstring` (where `none` models a raised `ExpatError`). -/
structure Ext where
  deflate : Bytes → Bytes
  inflate : Bytes → Option Bytes
  xmlParse : Bytes → Option Xml

/-- A Python exception escaping a validator function. -/
inductive PyErr where
  | structError
  | zlibError
  | keyError
  | valueError
  | attributeError
deriving DecidableEq

inductive FKind where
  | pass
  | note
  | warning
  | error
  | traceback
deriving DecidableEq

structure Finding where
  kind : FKind
  message : String
deriving DecidableEq

/-- Result of one validator test: the findings it logged and the
`shouldStop` value it returned (`True` → `true`, `None` → `false`). -/
abbrev TestResult := Except PyErr (List Finding × Bool)

def liftOpt {α : Type} (e : PyErr) : Option α → Except PyErr α
  | some a => .ok a
  | none => .error e

end Woff

namespace Woff.Validate

/-- `calcPaddingLength` (validate.py line 1140): note that this returns 4,
not 0, when `length` is already a multiple of 4. -/
def calcPaddingLength (length : Nat) : Nat := 4 - length % 4

/-- `padData`. -/
def padData (data : Bytes) : Bytes :=
  data ++ List.replicate (calcPaddingLength data.length) 0

/-- Split a byte list into big-endian 32-bit words (`struct.unpack(">%dL")`
over `len(data)/4` words). -/
def toWords : Bytes → List Nat
  | a :: b :: c :: d :: rest => (((a * 256 + b) * 256 + c) * 256 + d) :: toWords rest
  | _ => []

/-- `sumDataULongs`. -/
def sumDataULongs (data : Bytes) : Nat :=
  (toWords data).sum % 4294967296

/-- The tag `"head"` as bytes. -/
def headTag : Bytes := [104, 101, 97, 100]

/-- `calcChecksum(tag, data)` (validate.py): the `head` table is summed with
its checkSumAdjustment field (bytes 8..12) zeroed.  `tag` is `none` for the
`calcChecksum(None, sfntData)` call. -/
def calcChecksum (tag : Option Bytes) (data : Bytes) : Nat :=
  let data := if tag = some headTag then
    data.take 8 ++ [0, 0, 0, 0] ++ data.drop 12
  else data
  sumDataULongs (padData data)

/-- `maxPowerOfTwo`: the Python loop counts the bit length of `value` and
returns `max(bitLength - 1, 0)`.  (Structural recursion on a fuel
argument; `v` always fits since the bit length of `v` is at most `v`.) -/
def bitLengthAux : Nat → Nat → Nat
  | 0, _ => 0
  | fuel + 1, v => if v = 0 then 0 else bitLengthAux fuel (v / 2) + 1

def bitLength (v : Nat) : Nat := bitLengthAux v v

def maxPowerOfTwo (value : Nat) : Nat := bitLength value - 1

/-- `getSearchRange` (also models the identical `fontTools` helper imported
by `__init__.py`).  `rangeShift` is `numTables*16 - searchRange`, which is
non-negative whenever `numTables ≥ 1` (every call site). -/
def getSearchRange (numTables : Nat) : Nat × Nat × Nat :=
  let exponent := maxPowerOfTwo numTables
  let searchRange := 2 ^ exponent * 16
  (searchRange, exponent, numTables * 16 - searchRange)

/-- `structPack(sfntHeaderFormat, ...)` (12 bytes). -/
def packSfntHeader (sfntVersion : Bytes) (numTables searchRange entrySelector rangeShift : Nat) : Bytes :=
  fix4 sfntVersion ++ u16be numTables ++ u16be searchRange ++
  u16be entrySelector ++ u16be rangeShift

/-- `structPack(sfntDirectoryEntryFormat, ...)` (16 bytes). -/
def packSfntEntry (tag : Bytes) (checkSum offset length : Nat) : Bytes :=
  fix4 tag ++ u32be checkSum ++ u32be offset ++ u32be length

/-- `unpackTableData`: tag → decompressed table data; a zlib failure on any
table propagates as an exception. -/
def unpackTableData (ext : Ext) (data : Bytes) : Except PyErr (List (Bytes × Bytes)) := do
  let directory ← liftOpt .structError (unpackDirectoryOpt data)
  directory.foldlM (fun tables entry => do
    let tableData := (data.drop entry.offset).take entry.compLength
    let tableData ←
      if entry.compLength < entry.origLength then
        liftOpt .zlibError (ext.inflate tableData)
      else
        pure tableData
    pure (dictInsert entry.tag tableData tables))
    []

/-- `unpackMetadata(data, decompress=False, parse=False)`: the raw metadata
block. -/
def unpackMetadataRaw (data : Bytes) : Except PyErr Bytes := do
  let h ← liftOpt .structError (unpackHeaderOpt data)
  pure ((data.drop h.metaOffset).take h.metaLength)

/-- `unpackMetadata(data, parse=False)`: decompressed (when non-empty). -/
def unpackMetadataBytes (ext : Ext) (data : Bytes) : Except PyErr Bytes := do
  let raw ← unpackMetadataRaw data
  if raw.length ≠ 0 then liftOpt .zlibError (ext.inflate raw) else pure raw

/-- `unpackMetadata(data)`: decompressed and parsed (when non-empty);
`none` when the metadata block is empty (Python falls through returning the
empty string, which no caller of the parsed form reaches). -/
def unpackMetadataParsed (ext : Ext) (data : Bytes) : Except PyErr (Option Xml) := do
  let m ← unpackMetadataBytes ext data
  if m.length ≠ 0 then
    let tree ← liftOpt .structError (ext.xmlParse m)
    pure (some tree)
  else
    pure none

end Woff.Validate

namespace Woff.Validate

/-- Hex digits of a positive number (lowercase; structural recursion on a
fuel argument, which `n` itself always covers). -/
def hexDigit (d : Nat) : Char :=
  if d < 10 then Char.ofNat (48 + d) else Char.ofNat (87 + d)

def hexStrAux : Nat → Nat → List Char
  | 0, _ => []
  | fuel + 1, n => if n = 0 then [] else hexStrAux fuel (n / 16) ++ [hexDigit (n % 16)]

def hexStr (n : Nat) : String := String.mk (hexStrAux n n)

/-- Python 2 `hex()` on a plain int (magnitude below 2^63, so no `L`
suffix). -/
def pyHexNat (n : Nat) : String := if n = 0 then "0x0" else "0x" ++ hexStr n

/-- Python 2 `hex()` on a possibly negative int. -/
def pyHexInt (i : Int) : String :=
  if i < 0 then "-" ++ pyHexNat i.natAbs else pyHexNat i.toNat

/-- Python `%s` of a 4-byte string. -/
def bytesToStr (bs : Bytes) : String := String.mk (bs.map Char.ofNat)

def wOFFTag : Bytes := [119, 79, 70, 70]
def ottoTag : Bytes := [79, 84, 84, 79]
def ttfFlavor : Bytes := [0, 1, 0, 0]
def trueTag : Bytes := [116, 114, 117, 101]
def cffTag : Bytes := [67, 70, 70, 32]
def dsigTag : Bytes := [68, 83, 73, 71]

/-- The inline idiom `if x % 4: x += 4 - (x % 4)` used by several tests. -/
def padTo4 (n : Nat) : Nat := if n % 4 = 0 then n else n + (4 - n % 4)

/-- `testHeaderSize` (h-size). -/
def testHeaderSize (data : Bytes) : TestResult :=
  if data.length < headerSize then
    .ok ([⟨.error, "The header is not the proper length."⟩], true)
  else
    .ok ([⟨.pass, "The header length is correct."⟩], false)

/-- `testHeaderStructure` (h-structure). -/
def testHeaderStructure (data : Bytes) : TestResult :=
  match unpackHeaderOpt data with
  | some _ => .ok ([⟨.pass, "The header structure is correct."⟩], false)
  | none => .ok ([⟨.error, "The header is not properly structured."⟩], true)

/-- `testHeaderSignature` (h-signature). -/
def testHeaderSignature (data : Bytes) : TestResult := do
  let h ← liftOpt .structError (unpackHeaderOpt data)
  if h.signature ≠ wOFFTag then
    pure ([⟨.error, "Invalid signature: " ++ bytesToStr h.signature ++ "."⟩], true)
  else
    pure ([⟨.pass, "The signature is correct."⟩], false)

/-- `testHeaderFlavor` (h-flavor): an unknown flavor is logged as an ERROR
(the WARNING is reserved for an unreadable directory), and the test never
stops the pipeline. -/
def testHeaderFlavor (data : Bytes) : TestResult := do
  let h ← liftOpt .structError (unpackHeaderOpt data)
  let flavor := h.flavor
  if flavor ≠ ottoTag ∧ flavor ≠ ttfFlavor ∧ flavor ≠ trueTag then
    pure ([⟨.error, "Unknown flavor: " ++ bytesToStr flavor ++ "."⟩], false)
  else
    match unpackDirectoryOpt data with
    | none => pure ([⟨.warning, "Could not validate the flavor."⟩], false)
    | some directory =>
      let tags := directory.map (·.tag)
      if cffTag ∈ tags ∧ flavor ≠ ottoTag then
        pure ([⟨.error, "A \"CFF\" table is defined in the font and the flavor is not set to \"OTTO\"."⟩], false)
      else if cffTag ∉ tags ∧ flavor = ottoTag then
        pure ([⟨.error, "The flavor is set to \"OTTO\" but no \"CFF\" table is defined."⟩], false)
      else
        pure ([⟨.pass, "The flavor is a correct value."⟩], false)

/-- `testHeaderLength` (h-length). -/
def testHeaderLength (data : Bytes) : TestResult := do
  let h ← liftOpt .structError (unpackHeaderOpt data)
  let length := h.length
  let minLength := headerSize + directorySize * h.numTables
  if length ≠ data.length then
    pure ([⟨.error, "Defined length (" ++ toString length ++ ") does not match actual length of the data (" ++ toString data.length ++ ")."⟩], true)
  else if length < minLength then
    pure ([⟨.error, "Invalid length defined (" ++ toString length ++ ") for number of tables defined."⟩], true)
  else do
    let directory ← liftOpt .structError (unpackDirectoryOpt data)
    let minLength := minLength + (directory.map (fun e => padTo4 e.compLength)).sum
    let metaLength := if h.privLength ≠ 0 then padTo4 h.metaLength else h.metaLength
    let minLength := minLength + metaLength + h.privLength
    if length < minLength then
      pure ([⟨.error, "Defined length (" ++ toString length ++ ") does not match the required length of the data (" ++ toString minLength ++ ")."⟩], true)
    else
      pure ([⟨.pass, "The length defined in the header is correct."⟩], false)

/-- `testHeaderReserved` (h-reserved). -/
def testHeaderReserved (data : Bytes) : TestResult := do
  let h ← liftOpt .structError (unpackHeaderOpt data)
  if h.reserved ≠ 0 then
    pure ([⟨.error, "Invalid value in reserved field (" ++ toString h.reserved ++ ")."⟩], true)
  else
    pure ([⟨.pass, "The value in the reserved field is correct."⟩], false)

/-- `testHeaderTotalSFNTSize` (h-sfntsize). -/
def testHeaderTotalSFNTSize (data : Bytes) : TestResult := do
  let h ← liftOpt .structError (unpackHeaderOpt data)
  let directory ← liftOpt .structError (unpackDirectoryOpt data)
  let requiredSize := sfntHeaderSize + h.numTables * sfntDirectoryEntrySize +
    (directory.map (fun t => padTo4 t.origLength)).sum
  if h.totalSfntSize ≠ requiredSize then
    pure ([⟨.error, "The total sfnt size (" ++ toString h.totalSfntSize ++ ") does not match the required sfnt size (" ++ toString requiredSize ++ ")."⟩], false)
  else
    pure ([⟨.pass, "The total sfnt size is valid."⟩], false)

/-- `testHeaderMajorVersionAndMinorVersion` (h-version): the Python code
forms `float("%d.%d" % (major, minor))` and compares with 1.0, which is
below 1.0 exactly when `major == 0`. -/
def testHeaderMajorVersionAndMinorVersion (data : Bytes) : TestResult := do
  let h ← liftOpt .structError (unpackHeaderOpt data)
  let version := toString h.majorVersion ++ "." ++ toString h.minorVersion
  if h.majorVersion = 0 then
    pure ([⟨.warning, "The major version (" ++ toString h.majorVersion ++ ") and minor version (" ++ toString h.minorVersion ++ ") create a version (" ++ version ++ ") less than 1.0."⟩], false)
  else
    pure ([⟨.pass, "The major version and minor version are valid numbers."⟩], false)

/-- `testHeaderNumTables` (h-numtables). -/
def testHeaderNumTables (data : Bytes) : TestResult := do
  let h ← liftOpt .structError (unpackHeaderOpt data)
  if h.numTables < 1 then
    pure ([⟨.error, "Invalid number of tables defined in header structure (" ++ toString h.numTables ++ ")."⟩], true)
  else if headerSize + directorySize * h.numTables ≤ data.length then
    pure ([⟨.pass, "The number of tables defined in the header is valid."⟩], false)
  else
    pure ([⟨.error, "The defined number of tables in the header (" ++ toString h.numTables ++ ") does not match the actual number of tables (" ++ toString ((data.length - headerSize) / directorySize) ++ ")."⟩], true)

/-- `testDirectoryTableOrder` (d-order). -/
def testDirectoryTableOrder (data : Bytes) : TestResult := do
  let directory ← liftOpt .structError (unpackDirectoryOpt data)
  let storedOrder := directory.map (·.tag)
  if storedOrder ≠ sortByLe bytesLe storedOrder then
    pure ([⟨.error, "The table directory entries are not stored in alphabetical order."⟩], false)
  else
    pure ([⟨.pass, "The table directory entries are stored in the proper order."⟩], false)

/-- The per-entry body of `testDirectoryBorders`: the elif chain over
offset/length, yielding the finding and whether this entry had an error. -/
def borderResult (h : WoffHeader) (t : DirEntry) : Finding × Bool :=
  let totalLength := h.length
  let minOffset := headerSize + directorySize * h.numTables
  let maxLength : Int := (totalLength : Int) - (minOffset : Int)
  let offsetErr := "The \"" ++ bytesToStr t.tag ++ "\" table directory entry has an invalid offset (" ++ toString t.offset ++ ")."
  let lengthErr := "The \"" ++ bytesToStr t.tag ++ "\" table directory entry has an invalid length (" ++ toString t.compLength ++ ")."
  if t.offset < minOffset then (Finding.mk .error offsetErr, true)
  else if t.offset > totalLength then (Finding.mk .error offsetErr, true)
  else if t.offset + t.compLength > totalLength then (Finding.mk .error lengthErr, true)
  else if (t.compLength : Int) > maxLength then (Finding.mk .error lengthErr, true)
  else (Finding.mk .pass ("The \"" ++ bytesToStr t.tag ++ "\" table directory entry has a valid offset and length."), false)

/-- `testDirectoryBorders` (d-borders): one finding per entry; the test
stops the pipeline when any entry had an error. -/
def testDirectoryBorders (data : Bytes) : TestResult := do
  let h ← liftOpt .structError (unpackHeaderOpt data)
  let directory ← liftOpt .structError (unpackDirectoryOpt data)
  let results := directory.map (borderResult h)
  pure (results.map Prod.fst, results.any Prod.snd)

/-- `testDirectoryCompressedLength` (d-complength).  The message typos
("an compressed", "lager") are the source's. -/
def testDirectoryCompressedLength (data : Bytes) : TestResult := do
  let directory ← liftOpt .structError (unpackDirectoryOpt data)
  pure (directory.map (fun t =>
    if t.compLength > t.origLength then
      ⟨.error, "The \"" ++ bytesToStr t.tag ++ "\" table directory entry has an compressed length (" ++ toString t.compLength ++ ") lager than the original length (" ++ toString t.origLength ++ ")."⟩
    else
      ⟨.pass, "The \"" ++ bytesToStr t.tag ++ "\" table directory entry has proper compLength and origLength values."⟩), false)

/-- `testDirectoryChecksums` (d-checksum).  Note the unguarded
`unpackTableData` call: a zlib failure raises out of the test. -/
def testDirectoryChecksums (ext : Ext) (data : Bytes) : TestResult := do
  let directory ← liftOpt .structError (unpackDirectoryOpt data)
  let tables ← unpackTableData ext data
  pure (directory.map (fun entry =>
    let newChecksum := calcChecksum (some entry.tag) (dictGet tables entry.tag [])
    if newChecksum ≠ entry.origChecksum then
      ⟨.error, "The \"" ++ bytesToStr entry.tag ++ "\" table directory entry original checksum (" ++ pyHexNat entry.origChecksum ++ ") does not match the checksum (" ++ pyHexNat newChecksum ++ ") calculated from the data."⟩
    else
      ⟨.pass, "The \"" ++ bytesToStr entry.tag ++ "\" table directory entry original checksum is correct."⟩), false)

/-- `testTableDataStart` (t-start).  `min(offsets)` on an empty directory
would raise a `ValueError`; the pipeline never reaches that case because
h-numtables stops first. -/
def testTableDataStart (data : Bytes) : TestResult := do
  let h ← liftOpt .structError (unpackHeaderOpt data)
  let directory ← liftOpt .structError (unpackDirectoryOpt data)
  let requiredStart := headerSize + directorySize * h.numTables
  let start ← liftOpt .valueError (directory.map (·.offset)).min?
  if requiredStart ≠ start then
    pure ([⟨.error, "The table data does not start (" ++ toString start ++ ") in the required position (" ++ toString requiredStart ++ ")."⟩], false)
  else
    pure ([⟨.pass, "The table data begins in the proper position."⟩], false)

/-- `testTablePadding` (t-padding). -/
def testTablePadding (data : Bytes) : TestResult := do
  let h ← liftOpt .structError (unpackHeaderOpt data)
  let directory ← liftOpt .structError (unpackDirectoryOpt data)
  let offsetFindings := directory.map fun t =>
    if t.offset % 4 ≠ 0 then
      Finding.mk .error ("The \"" ++ bytesToStr t.tag ++ "\" table does not begin on a 4-byte boundary.")
    else
      Finding.mk .pass ("The \"" ++ bytesToStr t.tag ++ "\" table begins on a proper 4-byte boundary.")
  let endError :=
    if h.metaOffset = 0 ∧ h.privOffset = 0 then h.length % 4 ≠ 0
    else (if h.metaOffset ≠ 0 then h.metaOffset else h.privOffset) % 4 ≠ 0
  let endFinding :=
    if endError then Finding.mk .error "The sfnt data does not end with proper padding."
    else Finding.mk .pass "The sfnt data ends with proper padding."
  pure (offsetFindings ++ [endFinding], false)

/-- `testTableDecompression` (t-decompression): the zlib error is caught
per table; the stop flag accumulates. -/
def testTableDecompression (ext : Ext) (data : Bytes) : TestResult := do
  let directory ← liftOpt .structError (unpackDirectoryOpt data)
  let results := directory.filterMap fun t =>
    if t.origLength ≤ t.compLength then none
    else
      let entryData := (data.drop t.offset).take t.compLength
      match ext.inflate entryData with
      | some _ => some (Finding.mk .pass ("The \"" ++ bytesToStr t.tag ++ "\" table data can be decompressed with zlib."), false)
      | none => some (Finding.mk .error ("The \"" ++ bytesToStr t.tag ++ "\" table data can not be decompressed with zlib."), true)
  pure (results.map Prod.fst, results.any Prod.snd)

/-- `testDirectoryDecompressedLength` (t-origlength). -/
def testDirectoryDecompressedLength (ext : Ext) (data : Bytes) : TestResult := do
  let directory ← liftOpt .structError (unpackDirectoryOpt data)
  let tableData ← unpackTableData ext data
  pure ((directory.filterMap fun t =>
    if t.origLength ≤ t.compLength then none
    else
      let decompressedLength := (dictGet tableData t.tag []).length
      if t.origLength ≠ decompressedLength then
        some (Finding.mk .error ("The \"" ++ bytesToStr t.tag ++ "\" table directory entry has an original length (" ++ toString t.origLength ++ ") that does not match the actual length of the decompressed data (" ++ toString decompressedLength ++ ")."))
      else
        some (Finding.mk .pass ("The \"" ++ bytesToStr t.tag ++ "\" table directory entry has a proper original length compared to the actual decompressed data."))), false)

/-- `testDSIG` (t-dsig). -/
def testDSIG (data : Bytes) : TestResult := do
  let directory ← liftOpt .structError (unpackDirectoryOpt data)
  if directory.any (·.tag = dsigTag) then
    pure ([⟨.warning, "The font contains a \"DSIG\" table. This can not be validated by this tool."⟩], false)
  else
    pure ([⟨.note, "The font does not contain a \"DSIG\" table."⟩], false)

end Woff.Validate

namespace Woff.Validate

/-- Per-table sfnt directory information carried through
`calcHeadChecksum` / `calcHeadCheckSumAdjustment`. -/
structure SfntInfo where
  checkSum : Nat
  offset : Nat
  length : Nat
deriving DecidableEq

/-- `calcHeadChecksum` (validate.py lines 1159-1204).  Faithful to the
source: entries are walked in file-offset order; each synthesized sfnt
offset advances by `origLength + calcPaddingLength(origLength)` (which adds
4 extra bytes when `origLength` is already a multiple of 4); every entry
contributes its *stored* `origChecksum` (the freshly computed `head`
checksum on line 1182 is assigned to a local that is never used); and the
result is `0xB1B0AFBA - sum` *without* reduction mod 2^32, so it may be
negative. -/
def calcHeadChecksum (ext : Ext) (data : Bytes) : Except PyErr Int := do
  let header ← liftOpt .structError (unpackHeaderOpt data)
  let directory ← liftOpt .structError (unpackDirectoryOpt data)
  let tables ← unpackTableData ext data
  let numTables := header.numTables
  let sorter := directory.map fun e => (e.offset, e)
  let sortedEntries := sortByLe (fun a b => a.1 ≤ b.1) sorter
  let sr := getSearchRange numTables
  let sfntHeaderData := packSfntHeader header.flavor numTables sr.1 sr.2.1 sr.2.2
  let step := fun (acc : List (Bytes × SfntInfo) × Nat) (t : Nat × DirEntry) =>
    let e := t.2
    (dictInsert e.tag ⟨e.origChecksum, acc.2, e.origLength⟩ acc.1,
     acc.2 + e.origLength + calcPaddingLength e.origLength)
  let sfntEntries := (sortedEntries.foldl step
    ([], sfntHeaderSize + sfntDirectoryEntrySize * numTables)).1
  let byTag := sortByLe (fun a b => bytesLe a.1 b.1) sfntEntries
  let sfntData := byTag.foldl
    (fun acc p => acc ++ packSfntEntry p.1 p.2.checkSum p.2.offset p.2.length)
    sfntHeaderData
  let checkSums := (sfntEntries.map (fun p => p.2.checkSum)).sum +
    calcChecksum none sfntData
  let _ := tables
  pure ((0xB1B0AFBA : Int) - (checkSums : Int))

/-- `testHeadCheckSumAdjustment` (t-headchecksum): the stored field is read
with the *signed* format `">l"` and compared, as a Python int, with the
unreduced result of `calcHeadChecksum`. -/
def testHeadCheckSumAdjustment (ext : Ext) (data : Bytes) : TestResult := do
  let tables ← unpackTableData ext data
  if ¬ dictHasKey tables headTag then
    pure ([⟨.warning, "The font does not contain a \"head\" table."⟩], false)
  else do
    let newChecksum ← calcHeadChecksum ext data
    let headData := dictGet tables headTag []
    let slice := (headData.drop 8).take 4
    if slice.length = 4 then
      let checksum := signedOf (beToNat slice)
      if checksum ≠ newChecksum then
        pure ([⟨.error, "The \"head\" table checkSumAdjustment (" ++ pyHexInt checksum ++ ") does not match the calculated checkSumAdjustment (" ++ pyHexInt newChecksum ++ ")."⟩], false)
      else
        pure ([⟨.pass, "The \"head\" table checkSumAdjustment is valid."⟩], false)
    else
      pure ([⟨.error, "The \"head\" table is not properly structured."⟩], false)

/-- `shouldSkipMetadataTest`. -/
def shouldSkipMetadataTest (data : Bytes) : Except PyErr (Option Finding) := do
  let h ← liftOpt .structError (unpackHeaderOpt data)
  if h.metaOffset = 0 ∨ h.metaLength = 0 then
    pure (some ⟨.note, "No metadata to test."⟩)
  else
    pure none

/-- `testMetadataOffsetAndLength` (m-offsetlength). -/
def testMetadataOffsetAndLength (data : Bytes) : TestResult := do
  let h ← liftOpt .structError (unpackHeaderOpt data)
  let metaOffset := h.metaOffset
  let metaLength := h.metaLength
  if metaOffset = 0 ∨ metaLength = 0 then
    if metaOffset = 0 ∧ metaLength = 0 then
      pure ([⟨.pass, "The length and offset are appropriately set for empty metadata."⟩], false)
    else
      pure ([⟨.error, "The metadata offset (" ++ toString metaOffset ++ ") and metadata length (" ++ toString metaLength ++ ") are not properly set. If one is 0, they both must be 0."⟩], false)
  else if metaOffset % 4 ≠ 0 then
    pure ([⟨.error, "The metadata does not begin on a four-byte boundary."⟩], false)
  else do
    let directory ← liftOpt .structError (unpackDirectoryOpt data)
    let offsets := (headerSize + directorySize * h.numTables) ::
      directory.map (fun t => t.offset + t.compLength)
    let minOffset := padTo4 (offsets.foldl max 0)
    let maxLength : Int := (h.length : Int) - (minOffset : Int)
    let offsetErr := "The metadata has an invalid offset (" ++ toString metaOffset ++ ")."
    let lengthErr := "The metadata has an invalid length (" ++ toString metaLength ++ ")."
    if metaOffset < minOffset then pure ([⟨.error, offsetErr⟩], false)
    else if metaOffset > h.length then pure ([⟨.error, offsetErr⟩], false)
    else if metaOffset + metaLength > h.length then pure ([⟨.error, lengthErr⟩], false)
    else if (metaLength : Int) > maxLength then pure ([⟨.error, lengthErr⟩], false)
    else if metaOffset ≠ minOffset then pure ([⟨.error, offsetErr⟩], false)
    else pure ([⟨.pass, "The metadata has properly set offset and length."⟩], false)

/-- `testMetadataDecompression` (m-decompression); "metdata" is the
source's typo. -/
def testMetadataDecompression (ext : Ext) (data : Bytes) : TestResult := do
  match ← shouldSkipMetadataTest data with
  | some f => pure ([f], false)
  | none => do
    let compData ← unpackMetadataRaw data
    match ext.inflate compData with
    | none => pure ([⟨.error, "The metdata can not be decompressed with zlib."⟩], true)
    | some _ => pure ([⟨.pass, "The metadata can be decompressed with zlib."⟩], false)

/-- `testMetadataDecompressedLength` (m-metaOrigLength). -/
def testMetadataDecompressedLength (ext : Ext) (data : Bytes) : TestResult := do
  match ← shouldSkipMetadataTest data with
  | some f => pure ([f], false)
  | none => do
    let h ← liftOpt .structError (unpackHeaderOpt data)
    let metadata ← unpackMetadataBytes ext data
    if h.metaOrigLength ≠ metadata.length then
      pure ([⟨.error, "The decompressed metadata length (" ++ toString metadata.length ++ ") does not match the original metadata length (" ++ toString h.metaOrigLength ++ ") in the header."⟩], false)
    else
      pure ([⟨.pass, "The decompressed metadata length matches the original metadata length in the header."⟩], false)

/-- `testMetadataParse` (m-parse). -/
def testMetadataParse (ext : Ext) (data : Bytes) : TestResult := do
  match ← shouldSkipMetadataTest data with
  | some f => pure ([f], false)
  | none => do
    let metadata ← unpackMetadataBytes ext data
    match ext.xmlParse metadata with
    | none => pure ([⟨.error, "The metadata can not be parsed."⟩], true)
    | some _ => pure ([⟨.pass, "The metadata can be parsed."⟩], false)

end Woff.Validate

namespace Woff.Validate

/-- Lexicographic comparison on code points, as Python compares `str`
(kernel-reducible, unlike `String.decidableLE`). -/
def charListLe : List Char → List Char → Bool
  | [], _ => true
  | _ :: _, [] => false
  | c :: cs, d :: ds =>
    if c.toNat < d.toNat then true
    else if d.toNat < c.toNat then false
    else charListLe cs ds

def strLe (a b : String) : Bool := charListLe a.data b.data

def pairLe (a b : String × String) : Bool :=
  if a.1 = b.1 then strLe a.2 b.2 else strLe a.1 b.1

/-- `testMetadataAbstractElementRequiredAttributes`. -/
def testMetadataAbstractElementRequiredAttributes
    (element : Xml) (tag : String) (requiredAttributes : List String) :
    List Finding × Bool :=
  let fs := (sortByLe strLe requiredAttributes).filterMap fun attr =>
    if ¬ element.hasAttrib attr then
      some (Finding.mk .error ("Required attribute \"" ++ attr ++ "\" is not defined in the \"" ++ tag ++ "\" element."))
    else none
  (fs, fs ≠ [])

/-- `testMetadataAbstractElementOptionalAttributes`. -/
def testMetadataAbstractElementOptionalAttributes
    (element : Xml) (tag : String) (optionalAttributes : List String)
    (noteMissingOptionalAttributes : Bool) : List Finding :=
  (sortByLe strLe optionalAttributes).filterMap fun attr =>
    if ¬ element.hasAttrib attr ∧ noteMissingOptionalAttributes then
      some (Finding.mk .note ("Optional attribute \"" ++ attr ++ "\" is not defined in the \"" ++ tag ++ "\" element."))
    else none

/-- `testMetadataAbstractElementUnknownAttributes`. -/
def testMetadataAbstractElementUnknownAttributes
    (element : Xml) (tag : String)
    (requiredAttributes optionalAttributes : List String) :
    List Finding × Bool :=
  let fs := (sortByLe strLe (element.attrib.map Prod.fst)).filterMap fun attr =>
    if attr ∉ requiredAttributes ∧ attr ∉ optionalAttributes then
      some (Finding.mk .warning ("Unknown \"" ++ attr ++ "\" attribute of \"" ++ tag ++ "\" element."))
    else none
  (fs, fs ≠ [])

/-- `testMetadataAbstractElementEmptyValue`. -/
def testMetadataAbstractElementEmptyValue
    (element : Xml) (tag : String)
    (requiredAttributes optionalAttributes : List String) :
    List Finding × Bool :=
  let fs := (sortByLe pairLe element.attrib).filterMap fun p =>
    if p.1 ∉ requiredAttributes ∧ p.1 ∉ optionalAttributes then none
    else if !stripTruthy p.2 then
      some (Finding.mk .error ("The value for the \"" ++ p.1 ++ "\" attribute in the \"" ++ tag ++ "\" element is an empty string."))
    else none
  (fs, fs ≠ [])

/-- `testMetadataAbstractElementRequiredText`. -/
def testMetadataAbstractElementRequiredText (element : Xml) (tag : String) :
    List Finding × Bool :=
  if textNonEmpty element.text then ([], false)
  else ([Finding.mk .error ("Text not defined in \"" ++ tag ++ "\" element.")], true)

/-- `testMetadataAbstractElementIllegalText`. -/
def testMetadataAbstractElementIllegalText (element : Xml) (tag : String) :
    List Finding × Bool :=
  if textNonEmpty element.text then
    ([Finding.mk .error ("Text defined in \"" ++ tag ++ "\" element.")], true)
  else ([], false)

/-- `testMetadataAbstractElementKnownChildElements`; note that only the
missing-child findings set `haveError`, not the unknown-child warnings. -/
def testMetadataAbstractElementKnownChildElements
    (element : Xml) (tag : String) (knownChildElements : List String)
    (missingChildElementsAlertLevel : FKind) : List Finding × Bool :=
  let childFs := element.children.filterMap fun child =>
    if child.tag ∈ knownChildElements then none
    else some (Finding.mk .warning ("Unknown \"" ++ child.tag ++ "\" child element in \"" ++ tag ++ "\" element."))
  let missing := (sortByLe strLe knownChildElements).filterMap fun childTag =>
    if element.children.any (fun c => c.tag = childTag) then none
    else some (Finding.mk missingChildElementsAlertLevel ("Child element \"" ++ childTag ++ "\" is not defined in the \"" ++ tag ++ "\" element."))
  (childFs ++ missing, missing ≠ [])

/-- `testMetadataAbstractElementIllegalChildElements`. -/
def testMetadataAbstractElementIllegalChildElements (element : Xml) (tag : String) :
    List Finding × Bool :=
  if element.children.length ≠ 0 then
    ([Finding.mk .error ("Child elements defined in \"" ++ tag ++ "\" element.")], true)
  else ([], false)

/-- `testMetadataAbstractElement`. -/
def testMetadataAbstractElement (element : Xml) (tag : String)
    (requiredAttributes : List String)
    (optionalAttributes : List String)
    (noteMissingOptionalAttributes : Bool)
    (knownChildElements : List String)
    (missingChildElementsAlertLevel : FKind)
    (requireText : Bool) : List Finding × Bool :=
  let r1 := testMetadataAbstractElementRequiredAttributes element tag requiredAttributes
  let f2 := testMetadataAbstractElementOptionalAttributes element tag optionalAttributes noteMissingOptionalAttributes
  let r3 := testMetadataAbstractElementUnknownAttributes element tag requiredAttributes optionalAttributes
  let r4 := testMetadataAbstractElementEmptyValue element tag requiredAttributes optionalAttributes
  let r5 :=
    if requireText then testMetadataAbstractElementRequiredText element tag
    else testMetadataAbstractElementIllegalText element tag
  let r6 :=
    if knownChildElements ≠ [] then
      testMetadataAbstractElementKnownChildElements element tag knownChildElements missingChildElementsAlertLevel
    else
      testMetadataAbstractElementIllegalChildElements element tag
  (r1.1 ++ f2 ++ r3.1 ++ r4.1 ++ r5.1 ++ r6.1,
   r1.2 || r3.2 || r4.2 || r5.2 || r6.2)

/-- `testMetadataAbstractTextElements`. -/
def testMetadataAbstractTextElements (element : Xml) (tag : String) :
    List Finding × Bool :=
  element.children.foldl
    (fun acc child =>
      if child.tag ≠ "text" then acc
      else
        let r := testMetadataAbstractElement child tag [] ["lang"] false []
          FKind.error true
        (acc.1 ++ r.1, acc.2 || r.2))
    ([], false)

/-- The loop body of `testMetadataAbstractTextElementLanguages`: skip
non-`text` children, else count the child under
`child.attrib.get("lang", "undefined")`. -/
def langStep (acc : List (String × Nat)) (child : Xml) : List (String × Nat) :=
  if child.tag ≠ "text" then acc
  else
    let lang := child.attribGet "lang" "undefined"
    dictInsert lang (dictGet acc lang 0 + 1) acc

/-- The sort order of `sorted(languages.items())` (keys are unique, so
the tie case never decides). -/
def pairNatLe (a b : String × Nat) : Bool :=
  if a.1 = b.1 then a.2 ≤ b.2 else strLe a.1 b.1

/-- `testMetadataAbstractTextElementLanguages`: a `text` child without a
`lang` attribute is counted under the *string* `"undefined"`, the same
bucket as an explicit `lang="undefined"`. -/
def testMetadataAbstractTextElementLanguages (element : Xml) (tag : String) :
    List Finding × Bool :=
  let languages := element.children.foldl langStep []
  let errs := (sortByLe pairNatLe languages).filterMap fun p =>
    if p.2 > 1 then
      some (Finding.mk .error ("More than one instance of language \"" ++ p.1 ++ "\" in the \"" ++ tag ++ "\" element."))
    else none
  (errs, errs ≠ [])

/-- `testMetadataUniqueid`. -/
def testMetadataUniqueid (element : Xml) : List Finding :=
  let r := testMetadataAbstractElement element "uniqueid" ["id"] [] true []
    FKind.error false
  if !r.2 then r.1 ++ [⟨.pass, "The \"uniqueid\" element is properly formatted."⟩] else r.1

/-- `testMetadataVendor`. -/
def testMetadataVendor (element : Xml) : List Finding :=
  let r := testMetadataAbstractElement element "vendor" ["name"] ["url"] true []
    FKind.error false
  if !r.2 then r.1 ++ [⟨.pass, "The \"vendor\" element is properly formatted."⟩] else r.1

/-- `testMetadataCredit`. -/
def testMetadataCredit (element : Xml) : List Finding :=
  let r := testMetadataAbstractElement element "credit" ["name"] ["url", "role"]
    true [] FKind.error false
  if !r.2 then r.1 ++ [⟨.pass, "The \"credit\" element is properly formatted."⟩] else r.1

/-- `testMetadataCredits`: faithful to the source's quirks — the abstract
check is invoked with `tag="vendor"` and the local `haveError` is
initialised to `True`, so the PASS line is unreachable. -/
def testMetadataCredits (element : Xml) : List Finding :=
  let r := testMetadataAbstractElement element "vendor" [] [] true ["credit"]
    FKind.error false
  r.1 ++ (element.children.filter (fun c => c.tag = "credit")).flatMap testMetadataCredit

/-- Common body of the description/license/copyright/trademark tests. -/
def testMetadataTextContainer (element : Xml) (tag : String)
    (optionalAttributes : List String) : List Finding :=
  let r1 := testMetadataAbstractElement element tag [] optionalAttributes true
    ["text"] FKind.warning false
  let r2 := testMetadataAbstractTextElements element tag
  let r3 := testMetadataAbstractTextElementLanguages element tag
  let fs := r1.1 ++ r2.1 ++ r3.1
  if !(r1.2 || r2.2 || r3.2) then
    fs ++ [⟨.pass, "The \"" ++ tag ++ "\" element is properly formatted."⟩]
  else fs

/-- `testMetadataDescription`. -/
def testMetadataDescription (element : Xml) : List Finding :=
  testMetadataTextContainer element "description" []

/-- `testMetadataLicense`. -/
def testMetadataLicense (element : Xml) : List Finding :=
  testMetadataTextContainer element "license" ["url", "id"]

/-- `testMetadataCopyright`. -/
def testMetadataCopyright (element : Xml) : List Finding :=
  testMetadataTextContainer element "copyright" []

/-- `testMetadataTrademark`. -/
def testMetadataTrademark (element : Xml) : List Finding :=
  testMetadataTextContainer element "trademark" []

/-- `testMetadataLicensee`: the abstract check is invoked with
`tag="vendor"` (source quirk) but the PASS message says "licensee". -/
def testMetadataLicensee (element : Xml) : List Finding :=
  let r := testMetadataAbstractElement element "vendor" ["name"] [] true []
    FKind.error false
  if !r.2 then r.1 ++ [⟨.pass, "The \"licensee\" element is properly formatted."⟩] else r.1

def knownTopTags : List String :=
  ["uniqueid", "vendor", "credits", "description", "license", "copyright",
   "trademark", "licensee"]

/-- `testMetadataElementExistence`. -/
def testMetadataElementExistence (tree : Xml) : List Finding :=
  let count := fun t => (tree.children.filter (fun c => c.tag = t)).length
  let f1 :=
    if count "uniqueid" = 0 then
      [Finding.mk .warning "No \"uniqueid\" child is in the \"metadata\" element."]
    else []
  f1 ++ (sortByLe strLe (knownTopTags.filter (· ≠ "uniqueid"))).filterMap fun t =>
    if count t = 0 then
      some (Finding.mk .note ("No \"" ++ t ++ "\" child is in the \"metadata\" element."))
    else none

/-- `testMetadataDuplicateElements`. -/
def testMetadataDuplicateElements (tree : Xml) : List Finding :=
  let count := fun t => (tree.children.filter (fun c => c.tag = t)).length
  (sortByLe strLe knownTopTags).filterMap fun t =>
    if count t > 1 then
      some (Finding.mk .warning ("The \"" ++ t ++ "\" tag is used more than once in the \"metadata\" element."))
    else none

/-- `testMetadataChildElements`. -/
def testMetadataChildElements (tree : Xml) : List Finding :=
  testMetadataElementExistence tree ++ testMetadataDuplicateElements tree ++
  tree.children.flatMap fun element =>
    if element.tag = "uniqueid" then testMetadataUniqueid element
    else if element.tag = "vendor" then testMetadataVendor element
    else if element.tag = "credits" then testMetadataCredits element
    else if element.tag = "description" then testMetadataDescription element
    else if element.tag = "license" then testMetadataLicense element
    else if element.tag = "copyright" then testMetadataCopyright element
    else if element.tag = "trademark" then testMetadataTrademark element
    else if element.tag = "licensee" then testMetadataLicensee element
    else [Finding.mk .warning ("Unknown \"" ++ element.tag ++ "\" element.")]

/-- `testMetadataStructureTopElement`. -/
def testMetadataStructureTopElement (tree : Xml) : List Finding :=
  let f0 :=
    if tree.tag ≠ "metadata" then
      [Finding.mk .error "The top element is not \"metadata\"."]
    else []
  let keys := tree.attrib.map Prod.fst
  let f1 :=
    if keys ≠ ["version"] then
      (sortByLe strLe keys).filterMap fun key =>
        if key ≠ "version" then
          some (Finding.mk .error ("Unknown \"" ++ key ++ "\" attribute in \"metadata\" element."))
        else none
    else []
  let f2 :=
    if ¬ tree.hasAttrib "version" then
      [Finding.mk .error "The \"version\" attribute is not defined in \"metadata\" element."]
    else if tree.attribGet "version" "" ≠ "1.0" then
      [Finding.mk .error ("Invalid value (" ++ tree.attribGet "version" "" ++ ") for \"version\" attribute in \"metadata\" element.")]
    else []
  let f3 :=
    if textNonEmpty tree.text then
      [Finding.mk .error "Text defined in \"metadata\" element."]
    else []
  let all := f0 ++ f1 ++ f2 ++ f3
  if all = [] then [Finding.mk .pass "The \"metadata\" element is properly formatted."] else all

/-- `testMetadataStructure` (m-structure). -/
def testMetadataStructure (ext : Ext) (data : Bytes) : TestResult := do
  match ← shouldSkipMetadataTest data with
  | some f => pure ([f], false)
  | none => do
    match ← unpackMetadataParsed ext data with
    | none => .error .attributeError
    | some tree =>
      pure (testMetadataStructureTopElement tree ++ testMetadataChildElements tree, false)

/-- `testPrivateDataOffsetAndLength` (p-offsetlength); the messages say
"metadata" because the source copied them from the metadata test. -/
def testPrivateDataOffsetAndLength (data : Bytes) : TestResult := do
  let h ← liftOpt .structError (unpackHeaderOpt data)
  let privOffset := h.privOffset
  let privLength := h.privLength
  if privOffset = 0 ∨ privLength = 0 then
    if privOffset = 0 ∧ privLength = 0 then
      pure ([⟨.pass, "The length and offset are appropriately set for empty private data."⟩], false)
    else
      pure ([⟨.error, "The private data offset (" ++ toString privOffset ++ ") and private data length (" ++ toString privLength ++ ") are not properly set. If one is 0, they both must be 0."⟩], false)
  else if privOffset % 4 ≠ 0 then
    pure ([⟨.error, "The private data does not begin on a four-byte boundary."⟩], false)
  else do
    let directory ← liftOpt .structError (unpackDirectoryOpt data)
    let offsets := (headerSize + directorySize * h.numTables) ::
      directory.map (fun t => t.offset + t.compLength)
    let offsets := if h.metaOffset ≠ 0 then offsets ++ [h.metaOffset + h.metaLength] else offsets
    let minOffset := padTo4 (offsets.foldl max 0)
    let maxLength : Int := (h.length : Int) - (minOffset : Int)
    let offsetErr := "The metadata has an invalid offset (" ++ toString privOffset ++ ")."
    let lengthErr := "The metadata has an invalid length (" ++ toString privLength ++ ")."
    if privOffset < minOffset then pure ([⟨.error, offsetErr⟩], false)
    else if privOffset > h.length then pure ([⟨.error, offsetErr⟩], false)
    else if privOffset + privLength > h.length then pure ([⟨.error, lengthErr⟩], false)
    else if (privLength : Int) > maxLength then pure ([⟨.error, lengthErr⟩], false)
    else if privOffset ≠ minOffset then pure ([⟨.error, offsetErr⟩], false)
    else pure ([⟨.pass, "The private data has properly set offset and length."⟩], false)

/-- The ordered test list of validate.py. -/
def tests (ext : Ext) : List (String × (Bytes → TestResult)) := [
  ("Header - Size", testHeaderSize),
  ("Header - Structure", testHeaderStructure),
  ("Header - Signature", testHeaderSignature),
  ("Header - Flavor", testHeaderFlavor),
  ("Header - Length", testHeaderLength),
  ("Header - Reserved", testHeaderReserved),
  ("Header - Total sfnt Size", testHeaderTotalSFNTSize),
  ("Header - Version", testHeaderMajorVersionAndMinorVersion),
  ("Header - Number of Tables", testHeaderNumTables),
  ("Directory - Table Order", testDirectoryTableOrder),
  ("Directory - Table Borders", testDirectoryBorders),
  ("Directory - Compressed Length", testDirectoryCompressedLength),
  ("Directory - Table Checksums", testDirectoryChecksums ext),
  ("Tables - Start Position", testTableDataStart),
  ("Tables - Padding", testTablePadding),
  ("Tables - Decompression", testTableDecompression ext),
  ("Tables - Original Length", testDirectoryDecompressedLength ext),
  ("Tables - checkSumAdjustment", testHeadCheckSumAdjustment ext),
  ("Tables - DSIG", testDSIG),
  ("Metadata - Offset and Length", testMetadataOffsetAndLength),
  ("Metadata - Decompression", testMetadataDecompression ext),
  ("Metadata - Original Length", testMetadataDecompressedLength ext),
  ("Metadata - Parse", testMetadataParse ext),
  ("Metadata - Structure", testMetadataStructure ext),
  ("Private Data - Offset and Length", testPrivateDataOffsetAndLength)]

/-- A validation report: findings grouped per test title, plus the
`haveReadError` flag. -/
structure Report where
  groups : List (String × List Finding)
  haveReadError : Bool
deriving DecidableEq

/-- The test loop of `validateFont`: run tests in order, stop after the
first test returning `True`; an exception raised by a test propagates.
`haveReadError` is the last `shouldStop` value. -/
def runTests : List (String × (Bytes → TestResult)) → Bytes → Except PyErr Report
  | [], _ => .ok ⟨[], false⟩
  | (title, f) :: rest, data => do
    let r ← f data
    if r.2 then
      .ok ⟨[(title, r.1)], true⟩
    else do
      let tail ← runTests rest data
      .ok ⟨(title, r.1) :: tail.groups, tail.haveReadError⟩

/-- `validateFont` restricted to its validation behaviour (the HTML
rendering and file output are out of scope). -/
def validateFont (ext : Ext) (data : Bytes) : Except PyErr Report :=
  runTests (tests ext) data

end Woff.Validate

namespace Woff.WoffLib

/-- `calc4BytePaddedLength` (__init__.py line 664): `(length + 3) & ~3`. -/
def calc4BytePaddedLength (length : Nat) : Nat := (length + 3) / 4 * 4

/-- Models `fontTools.ttLib.sfnt.calcChecksum` (external dependency): the
data is zero-padded to a 4-byte multiple and summed as big-endian u32
words.  Every call site in `__init__.py` reduces the result with
`& 0xffffffff`, so the sum is modelled directly mod 2^32. -/
def ftCalcChecksum (data : Bytes) : Nat :=
  Validate.sumDataULongs
    (data ++ List.replicate (calc4BytePaddedLength data.length - data.length) 0)

/-- `calcTableChecksum` (__init__.py line 667). -/
def calcTableChecksum (tag : Bytes) (data : Bytes) : Nat :=
  if tag = Validate.headTag then
    ftCalcChecksum (data.take 8 ++ [0, 0, 0, 0] ++ data.drop 12)
  else
    ftCalcChecksum data

/-- `calcHeadCheckSumAdjustment` (__init__.py line 675): builds the
synthesized sfnt header plus the tag-sorted directory, sums every table's
`checkSum` plus the directory checksum, and reduces
`0xB1B0AFBA - sum` with `& 0xffffffff`. -/
def calcHeadCheckSumAdjustment (flavor : Bytes)
    (tables : List (Bytes × Validate.SfntInfo)) : Nat :=
  let numTables := tables.length
  let sr := Validate.getSearchRange numTables
  let headerData := Validate.packSfntHeader flavor numTables sr.1 sr.2.1 sr.2.2
  let byTag := sortByLe (fun a b => bytesLe a.1 b.1) tables
  let directory := byTag.foldl
    (fun acc p => acc ++ Validate.packSfntEntry p.1 p.2.checkSum p.2.offset p.2.length)
    headerData
  let checkSums := (tables.map (fun p => p.2.checkSum)).sum + ftCalcChecksum directory
  ((((0xB1B0AFBA : Int) - (checkSums : Int)) % 4294967296).toNat)

/-- A `WOFFLibError` (or assertion failure) raised by the writer. -/
inductive WErr where
  | wrongNumberOfTables
  | conformance (tag : Bytes)
  | assertionFailure
  | zlib
  | dsigTableOrder
  | dsigReorder
  | dsigRecalculate
deriving DecidableEq

structure WOFFWriterInit where
  numTables : Nat
  flavor : Bytes
  majorVersion : Nat
  minorVersion : Nat
  recalculateHeadChecksum : Bool
deriving DecidableEq

/-- One value of the writer's `tables` dict: `(index, entry, data)`. -/
structure TableRec where
  index : Nat
  entry : DirEntry
  data : Bytes
deriving DecidableEq

/-- Run an effectful check over each element, stopping at the first
raised exception (the conformance loop in `close`). -/
def forEachM {ε α : Type} (f : α → Except ε Unit) : List α → Except ε Unit
  | [] => .ok ()
  | x :: xs => do
    let _ ← f x
    forEachM f xs

structure WOFFWriterState where
  init : WOFFWriterInit
  tables : List (Bytes × TableRec)
  metadata : Option Bytes
  metaOrigLength : Nat
  metaLength : Nat
  privateData : Option Bytes
  privLength : Nat
deriving DecidableEq

/-- The state of a freshly constructed `WOFFWriter`. -/
def WOFFWriterState.new (init : WOFFWriterInit) : WOFFWriterState :=
  ⟨init, [], none, 0, 0, none, 0⟩

/-- `WOFFWriter._prepTable` without `entryOnly`.  `pre = some (origLength,
origChecksum, compLength)` models a call with caller-supplied directory
values (data left untouched); `none` models the compressing call. -/
def prepTable (ext : Ext) (tag : Bytes) (data : Bytes)
    (pre : Option (Nat × Nat × Nat)) : DirEntry × Bytes :=
  match pre with
  | none =>
    let origLength := data.length
    let origChecksum := calcTableChecksum tag data
    let compData := ext.deflate data
    let compLength := compData.length
    if origLength ≤ compLength then
      ({ tag := tag, offset := 0, compLength := origLength,
         origLength := origLength, origChecksum := origChecksum }, data)
    else
      ({ tag := tag, offset := 0, compLength := compLength,
         origLength := origLength, origChecksum := origChecksum }, compData)
  | some (origLength, origChecksum, compLength) =>
    ({ tag := tag, offset := 0, compLength := compLength,
       origLength := origLength, origChecksum := origChecksum }, data)

/-- `WOFFWriter._prepTable` with `entryOnly=True` (the deferred `head`
path): `compLength` is left 0 and no compression happens. -/
def prepTableEntryOnly (tag : Bytes) (data : Bytes) (origLength : Nat) : DirEntry :=
  { tag := tag, offset := 0, compLength := 0, origLength := origLength,
    origChecksum := calcTableChecksum tag data }

/-- One `setTable` call as made by a caller. -/
structure SetTableCall where
  tag : Bytes
  data : Bytes
  pre : Option (Nat × Nat × Nat)
deriving DecidableEq

/-- `WOFFWriter.setTable`. -/
def setTable (ext : Ext) (st : WOFFWriterState) (c : SetTableCall) :
    Except WErr WOFFWriterState := do
  let pair ←
    if st.init.recalculateHeadChecksum ∧ c.tag = Validate.headTag then do
      let data ←
        match c.pre with
        | some (ol, _, cl) =>
          if cl < ol then
            match ext.inflate c.data with
            | some d => pure d
            | none => Except.error WErr.zlib
          else pure c.data
        | none => pure c.data
      pure (prepTableEntryOnly c.tag data data.length, data)
    else
      pure (prepTable ext c.tag c.data c.pre)
  pure { st with
    tables := dictInsert c.tag ⟨st.tables.length, pair.1, pair.2⟩ st.tables }

/-- `WOFFWriter.setMetadata`; `pre = some (metaOrigLength, metaLength)`
models caller-supplied lengths (already-compressed data). -/
def setMetadata (ext : Ext) (st : WOFFWriterState) (data : Bytes)
    (pre : Option (Nat × Nat)) : WOFFWriterState :=
  if data.length = 0 then st
  else
    match pre with
    | none =>
      let compData := ext.deflate data
      { st with metadata := some compData, metaOrigLength := data.length,
                metaLength := compData.length }
    | some (mol, ml) =>
      { st with metadata := some data, metaOrigLength := mol, metaLength := ml }

/-- `WOFFWriter.setPrivateData`. -/
def setPrivateData (st : WOFFWriterState) (data : Bytes) : WOFFWriterState :=
  if data.length = 0 then st
  else { st with privateData := some data, privLength := data.length }

/-- `WOFFWriter._checkTableConformance`. -/
def checkTableConformance (ext : Ext) (entry : DirEntry) (data : Bytes) :
    Except WErr Unit := do
  if entry.origLength < entry.compLength then
    Except.error (WErr.conformance entry.tag)
  else do
    let pair ←
      if entry.origLength > entry.compLength then
        match ext.inflate data with
        | some d => pure (d, data)
        | none => Except.error WErr.zlib
      else pure (data, data)
    if entry.origLength ≠ pair.1.length then
      Except.error (WErr.conformance entry.tag)
    else if entry.origChecksum ≠ calcTableChecksum entry.tag pair.1 then
      Except.error (WErr.conformance entry.tag)
    else if entry.compLength ≠ pair.2.length then
      Except.error (WErr.conformance entry.tag)
    else
      pure ()

/-- `WOFFWriter._handleHeadChecksum`: compute the adjustment from the
entries known so far (in index order, offsets advanced by the 4-byte
padded `origLength`), patch bytes 8..12 of the `head` payload, compress
it, and re-store the entry. -/
def handleHeadChecksum (ext : Ext) (st : WOFFWriterState) :
    Except WErr WOFFWriterState := do
  let ordered := sortByLe (fun a b => a.2.index ≤ b.2.index) st.tables
  let step := fun (acc : List (Bytes × Validate.SfntInfo) × Nat) (p : Bytes × TableRec) =>
    (acc.1 ++ [(p.2.entry.tag, ⟨p.2.entry.origChecksum, acc.2, p.2.entry.origLength⟩)],
     acc.2 + calc4BytePaddedLength p.2.entry.origLength)
  let tables := (ordered.foldl step
    ([], sfntHeaderSize + sfntDirectoryEntrySize * st.init.numTables)).1
  let checkSumAdjustment := calcHeadCheckSumAdjustment st.init.flavor tables
  match st.tables.find? (fun p => p.1 = Validate.headTag) with
  | none => pure st
  | some p =>
    let data := p.2.data.take 8 ++ u32be checkSumAdjustment ++ p.2.data.drop 12
    let new := prepTable ext Validate.headTag data none
    if p.2.entry.origChecksum ≠ new.1.origChecksum then
      Except.error WErr.assertionFailure
    else
      let entry := { p.2.entry with origLength := new.1.origLength,
                                    compLength := new.1.compLength }
      pure { st with
        tables := dictInsert Validate.headTag ⟨p.2.index, entry, new.2⟩ st.tables }

/-- Everything `WOFFWriter.close` has written when it returns: the final
header, the tag-sorted directory, and the four byte regions following the
header in the file. -/
structure WriterOutput where
  header : WoffHeader
  directory : List DirEntry
  dirBytes : Bytes
  tableBytes : Bytes
  metaBlock : Bytes
  privBlock : Bytes
deriving DecidableEq

/-- The emitted byte stream (the regions are contiguous: the writer seeks
to `metaOffset` = end of table data and to `privOffset` = end of the
padded metadata). -/
def WriterOutput.bytes (o : WriterOutput) : Bytes :=
  packHeader o.header ++ o.dirBytes ++ o.tableBytes ++ o.metaBlock ++ o.privBlock

/-- One step of `close`'s offset-update loop: append the record with its
`offset` set to the running position, and advance by the 4-byte padded
`compLength`. -/
def assignOffsets (acc : List (Bytes × TableRec) × Nat) (p : Bytes × TableRec) :
    List (Bytes × TableRec) × Nat :=
  (acc.1 ++ [(p.1, { p.2 with entry := { p.2.entry with offset := acc.2 } })],
   acc.2 + calc4BytePaddedLength p.2.entry.compLength)

/-- The emission stage of `WOFFWriter.close`: offsets, directory, padded
table data, metadata and private-data placement, and the final header. -/
def closeOutput (st : WOFFWriterState) : WriterOutput :=
  let ordered := sortByLe (fun a b => a.2.index ≤ b.2.index) st.tables
  let ordered := (ordered.foldl assignOffsets
    ([], headerSize + directorySize * st.init.numTables)).1
  let dirByTag := sortByLe (fun a b => bytesLe a.1 b.1) ordered
  let dirBytes := dirByTag.foldl (fun acc p => acc ++ packDirEntry p.2.entry) []
  let tableBytes := ordered.foldl (fun acc p =>
    acc ++ p.2.data ++
    List.replicate (calc4BytePaddedLength p.2.entry.compLength - p.2.entry.compLength) 0) []
  let tableDataEnd := headerSize + directorySize * st.init.numTables +
    (ordered.map (fun p => calc4BytePaddedLength p.2.entry.compLength)).sum
  let totalSfntSize := sfntHeaderSize + sfntDirectoryEntrySize * st.init.numTables +
    (ordered.map (fun p => calc4BytePaddedLength p.2.entry.origLength)).sum
  let meta :=
    match st.metadata with
    | none => (0, 0, tableDataEnd, ([] : Bytes))
    | some m =>
      let metaOffset := tableDataEnd
      let metadataEnd := metaOffset + st.metaLength
      if st.privateData ≠ none then
        let padding := calc4BytePaddedLength st.metaLength - st.metaLength
        (metaOffset, metadataEnd + padding, tableDataEnd + st.metaLength + padding,
         m ++ List.replicate padding 0)
      else
        (metaOffset, metadataEnd, tableDataEnd + st.metaLength, m)
  let priv :=
    match st.privateData with
    | none => (0, meta.2.2.1, ([] : Bytes))
    | some p =>
      let privOffset := if st.metadata ≠ none then meta.2.1 else tableDataEnd
      (privOffset, meta.2.2.1 + st.privLength, p)
  let header : WoffHeader := {
    signature := [119, 79, 70, 70], flavor := st.init.flavor, length := priv.2.1,
    numTables := st.init.numTables, reserved := 0, totalSfntSize := totalSfntSize,
    majorVersion := st.init.majorVersion, minorVersion := st.init.minorVersion,
    metaOffset := meta.1, metaLength := st.metaLength,
    metaOrigLength := st.metaOrigLength,
    privOffset := priv.1, privLength := st.privLength }
  { header := header, directory := dirByTag.map (fun p => p.2.entry),
    dirBytes := dirBytes, tableBytes := tableBytes,
    metaBlock := meta.2.2.2, privBlock := priv.2.2 }

/-- `WOFFWriter.close`. -/
def close (ext : Ext) (st : WOFFWriterState) : Except WErr WriterOutput := do
  if st.init.numTables ≠ st.tables.length then
    Except.error WErr.wrongNumberOfTables
  else do
    let st ←
      if st.init.recalculateHeadChecksum ∧ dictHasKey st.tables Validate.headTag then
        handleHeadChecksum ext st
      else pure st
    let sortedByTag := sortByLe (fun a b => bytesLe a.1 b.1) st.tables
    let _ ← forEachM (fun p => checkTableConformance ext p.2.entry p.2.data) sortedByTag
    pure (closeOutput st)

/-- Run a whole writer session: construct, apply the `setTable` /
`setMetadata` / `setPrivateData` calls, then `close`. -/
structure WriterSession where
  init : WOFFWriterInit
  tableCalls : List SetTableCall
  metadataCall : Option (Bytes × Option (Nat × Nat))
  privateCall : Option Bytes
deriving DecidableEq

def runWriter (ext : Ext) (s : WriterSession) : Except WErr WriterOutput := do
  let st ← s.tableCalls.foldlM (setTable ext) (WOFFWriterState.new s.init)
  let st :=
    match s.metadataCall with
    | none => st
    | some (m, pre) => setMetadata ext st m pre
  let st :=
    match s.privateCall with
    | none => st
    | some p => setPrivateData st p
  close ext st

end Woff.WoffLib

namespace Woff.WoffLib

/-- Attribute-value escaping of `ElementTree._escape_attrib` (the entities
the library replaces, applied character-wise; the library replaces "&"
first, so the sequential replaces coincide with this mapping). -/
def escAttribChar (c : Char) : List Char :=
  if c = '&' then "&amp;".data
  else if c = '<' then "&lt;".data
  else if c = '>' then "&gt;".data
  else if c = '"' then "&quot;".data
  else if c = '\n' then "&#10;".data
  else [c]

def escapeAttrib (s : String) : String := String.mk (s.data.flatMap escAttribChar)

/-- Text escaping of `ElementTree._escape_cdata`. -/
def escTextChar (c : Char) : List Char :=
  if c = '&' then "&amp;".data
  else if c = '<' then "&lt;".data
  else if c = '>' then "&gt;".data
  else [c]

def escapeText (s : String) : String := String.mk (s.data.flatMap escTextChar)

/-- Python truthiness of `elem.text` (no strip). -/
def textTruthy : Option String → Bool
  | none => false
  | some t => t ≠ ""

mutual

/-- Models `ElementTree._serialize_xml` (external dependency) for elements
without namespaces or tails: attributes in sorted order, ` />` for an
element with no text and no children. -/
def serializeXml : Xml → String
  | .elem tag attrib text children =>
    let attrs := (sortByLe Validate.pairLe attrib).foldl
      (fun acc p => acc ++ " " ++ p.1 ++ "=\"" ++ escapeAttrib p.2 ++ "\"") ""
    if !textTruthy text ∧ children.isEmpty then
      "<" ++ tag ++ attrs ++ " />"
    else
      "<" ++ tag ++ attrs ++ ">" ++
      (match text with | some t => escapeText t | none => "") ++
      serializeXmlList children ++ "</" ++ tag ++ ">"

def serializeXmlList : List Xml → String
  | [] => ""
  | x :: xs => serializeXml x ++ serializeXmlList xs

end

/-- `ElementTree.ElementTree(root).write(f, encoding="utf-8")`: for the
"utf-8" encoding the library writes no XML declaration, only the
serialized root element. -/
def serializeXmlDoc (root : Xml) : String := serializeXml root

/-- The declaration `WOFFFont.save` prepends when missing. -/
def xmlDeclaration : String := "<?xml version=\"1.0\" encoding=\"UTF-8\"?>\n"

/-- Python `s.startswith(p)` (kernel-reducible). -/
def startsWithChars : List Char → List Char → Bool
  | _, [] => true
  | [], _ :: _ => false
  | c :: cs, p :: ps => c = p && startsWithChars cs ps

def pyStartsWith (s p : String) : Bool := startsWithChars s.data p.data

/-- UTF-8 bytes of an ASCII string (all metadata in this development is
ASCII, where UTF-8 is the identity on code points). -/
def strToBytes (s : String) : Bytes := s.data.map Char.toNat

/-- Models `fontTools.ttLib.sortedTagList` (external dependency):
alphabetical order, `DSIG` moved to the end, then the OpenType suggested
tables pulled to the front in their suggested order. -/
def sortedTagList (tagList : List Bytes) (tableOrder : Option (List Bytes)) :
    List Bytes :=
  let sorted := sortByLe bytesLe tagList
  let order :=
    match tableOrder with
    | some o => o
    | none =>
      if strToBytes "CFF " ∈ sorted then
        ["head", "hhea", "maxp", "OS/2", "name", "cmap", "post", "CFF "].map strToBytes
      else
        ["head", "hhea", "maxp", "OS/2", "hmtx", "LTSH", "VDMX", "hdmx", "cmap",
         "fpgm", "prep", "cvt ", "loca", "glyf", "kern", "name", "post", "gasp",
         "PCLT"].map strToBytes
  let sorted :=
    match tableOrder with
    | some _ => sorted
    | none =>
      if Validate.dsigTag ∈ sorted then
        sorted.filter (· ≠ Validate.dsigTag) ++ [Validate.dsigTag]
      else sorted
  order.filter (· ∈ sorted) ++ sorted.filter (· ∉ order)

/-- The `WOFFFont` aggregate for fonts built in memory (no reader): raw
table data per tag, the metadata tree (`_metadata`), private data, and an
optional caller-set table order. -/
structure WOFFFontModel where
  flavor : Bytes
  majorVersion : Nat
  minorVersion : Nat
  tables : List (Bytes × Bytes)
  metadata : Option Xml
  privateData : Option Bytes
  tableOrder : Option (List Bytes)

/-- `WOFFFont.save` for reader-less fonts (every table is "loaded", so
each `setTable` call passes the raw data with no precomputed directory
values). -/
def save (ext : Ext) (font : WOFFFontModel) (reorderTables : Bool)
    (recalculateHeadChecksum : Bool) : Except WErr WriterOutput := do
  let tags := sortedTagList (font.tables.map Prod.fst) font.tableOrder
  if Validate.dsigTag ∈ tags then
    if font.tableOrder.all (fun o => ¬ (tags.all (· ∈ o) ∧ o.all (· ∈ tags))) then
      Except.error WErr.dsigTableOrder
    else if reorderTables then
      Except.error WErr.dsigReorder
    else if recalculateHeadChecksum then
      Except.error WErr.dsigRecalculate
    else pure ()
  else pure ()
  let tags := if reorderTables then sortedTagList tags none else tags
  let stInit : WOFFWriterInit :=
    { numTables := tags.length, flavor := font.flavor,
      majorVersion := font.majorVersion, minorVersion := font.minorVersion,
      recalculateHeadChecksum := recalculateHeadChecksum }
  let st ← tags.foldlM
    (fun st tag => setTable ext st ⟨tag, dictGet font.tables tag [], none⟩)
    (WOFFWriterState.new stInit)
  let st :=
    match font.metadata with
    | some tree =>
      let metadata := serializeXmlDoc tree
      let metadata :=
        if pyStartsWith metadata xmlDeclaration then metadata
        else xmlDeclaration ++ metadata
      setMetadata ext st (strToBytes metadata) none
    | none => st
  let st :=
    match font.privateData with
    | some p => setPrivateData st p
    | none => st
  close ext st

/-- An exception raised while re-reading a WOFF. -/
inductive RdErr where
  | woffLib
  | zlib
  | assertion
  | parse
deriving DecidableEq

/-- `WOFFReader.__init__` followed by the `metadata` attribute access:
decompressed metadata text, with the reader's length assertion. -/
def readerMetadata (ext : Ext) (data : Bytes) : Except RdErr Bytes := do
  let h ←
    match unpackHeaderOpt data with
    | some h => pure h
    | none => Except.error RdErr.woffLib
  if h.signature ≠ [119, 79, 70, 70] then
    Except.error RdErr.woffLib
  else do
    if (unpackDirectoryOpt data).isNone then
      Except.error RdErr.woffLib
    else do
      let raw := (data.drop h.metaOffset).take h.metaLength
      if h.metaLength ≠ 0 then
        match ext.inflate raw with
        | none => Except.error RdErr.zlib
        | some m =>
          if m.length ≠ h.metaOrigLength then Except.error RdErr.assertion
          else pure m
      else pure raw

/-- `WOFFFont.metadata` on a just-opened font: parse the reader's metadata
text (or substitute the default empty `metadata` element). -/
def fontReadMetadata (ext : Ext) (data : Bytes) : Except RdErr Xml := do
  let text ← readerMetadata ext data
  if text.length ≠ 0 then
    match ext.xmlParse text with
    | some tree => pure tree
    | none => Except.error RdErr.parse
  else
    pure (Xml.elem "metadata" [("version", "1.0")] none [])

end Woff.WoffLib

namespace Woff.XmlModel

/-! A small recursive-descent XML reader modelling
`xml.etree.ElementTree.fromstring` (an external collaborator) on the
document fragment the repository produces: an optional declaration, then
nested elements with double-quoted attributes and plain text.  Anything
outside this fragment parses to `none` (the library would raise
`ExpatError`). -/

def isSpace (c : Char) : Bool := c = ' ' ∨ c = '\n' ∨ c = '\t' ∨ c = '\r'

def skipSpaces : List Char → List Char
  | c :: cs => if isSpace c then skipSpaces cs else c :: cs
  | [] => []

def isNameChar (c : Char) : Bool :=
  c.isAlphanum ∨ c = '-' ∨ c = '_' ∨ c = '.' ∨ c = ':'

def takeName : List Char → List Char × List Char
  | c :: cs =>
    if isNameChar c then
      let p := takeName cs
      (c :: p.1, p.2)
    else ([], c :: cs)
  | [] => ([], [])

def dropUntilDeclEnd : List Char → List Char
  | '?' :: '>' :: cs => cs
  | _ :: cs => dropUntilDeclEnd cs
  | [] => []

def skipDeclaration (cs : List Char) : List Char :=
  match cs with
  | '<' :: '?' :: rest => dropUntilDeclEnd rest
  | _ => cs

def takeUntilQuote : List Char → Option (List Char × List Char)
  | '"' :: cs => some ([], cs)
  | c :: cs => do
    let p ← takeUntilQuote cs
    some (c :: p.1, p.2)
  | [] => none

def takeUntilLt : List Char → List Char × List Char
  | c :: cs =>
    if c = '<' then ([], c :: cs)
    else
      let p := takeUntilLt cs
      (c :: p.1, p.2)
  | [] => ([], [])

def parseAttrs : Nat → List Char → Option (List (String × String) × List Char)
  | 0, _ => none
  | fuel + 1, cs =>
    let cs := skipSpaces cs
    match cs with
    | '/' :: rest => some ([], '/' :: rest)
    | '>' :: rest => some ([], '>' :: rest)
    | other =>
      let p := takeName other
      if p.1.isEmpty then none
      else
        match p.2 with
        | '=' :: '"' :: cs => do
          let v ← takeUntilQuote cs
          let rest ← parseAttrs fuel v.2
          some ((String.mk p.1, String.mk v.1) :: rest.1, rest.2)
        | _ => none

mutual

def parseElem : Nat → List Char → Option (Xml × List Char)
  | 0, _ => none
  | fuel + 1, cs =>
    match cs with
    | '<' :: cs =>
      let n := takeName cs
      if n.1.isEmpty then none
      else
        match parseAttrs (fuel + 1) n.2 with
        | none => none
        | some (attrs, cs) =>
          match skipSpaces cs with
          | '/' :: '>' :: cs => some (Xml.elem (String.mk n.1) attrs none [], cs)
          | '>' :: cs =>
            let t := takeUntilLt cs
            let text := if t.1.isEmpty then none else some (String.mk t.1)
            match parseChildren fuel (String.mk n.1) t.2 with
            | none => none
            | some (children, cs) =>
              some (Xml.elem (String.mk n.1) attrs text children, cs)
          | _ => none
    | _ => none

def parseChildren : Nat → String → List Char → Option (List Xml × List Char)
  | 0, _, _ => none
  | fuel + 1, name, cs =>
    match cs with
    | '<' :: '/' :: cs =>
      let n := takeName cs
      if String.mk n.1 = name then
        match n.2 with
        | '>' :: cs => some ([], cs)
        | _ => none
      else none
    | '<' :: rest =>
      match parseElem fuel ('<' :: rest) with
      | none => none
      | some (child, cs) =>
        let t := takeUntilLt cs
        match parseChildren fuel name t.2 with
        | none => none
        | some (children, cs) => some (child :: children, cs)
    | _ => none

end

/-- `ElementTree.fromstring` model. -/
def xmlFromString (s : String) : Option Xml :=
  let cs := skipDeclaration (skipSpaces s.data)
  match parseElem (s.length + 1) (skipSpaces cs) with
  | some (tree, rest) => if (skipSpaces rest).isEmpty then some tree else none
  | none => none

/-- The byte-level form of the parser, usable as `Ext.xmlParse`: decode the
bytes as characters (ASCII/latin-1 prefix of UTF-8; all concrete inputs in
this development are ASCII) and parse. -/
def xmlParseBytes (bs : Bytes) : Option Xml :=
  xmlFromString (String.mk (bs.map Char.ofNat))

end Woff.XmlModel

namespace Woff

/-- A concrete external-collaborator instance: the identity codec (a legal
zlib behaviour on streams it cannot shrink never arises at the call sites
where theorems use this instance without a round-trip hypothesis) and the
model XML reader. -/
def extId : Ext :=
  { deflate := fun b => b, inflate := fun b => some b,
    xmlParse := XmlModel.xmlParseBytes }

/-- An external-collaborator instance whose `inflate` fails on every
input, standing in for zlib decompressing bytes that are not a zlib
stream. -/
def extFailInflate : Ext :=
  { deflate := fun b => b, inflate := fun _ => none,
    xmlParse := XmlModel.xmlParseBytes }

/-- 54 bytes of 0xFF: a `head` table payload whose checksum is large
enough that `0xB1B0AFBA - sum` is below `-2^31`. -/
def bigHeadData : Bytes := List.replicate 54 255

/-- Writer session for claim C1: a font with a single `head` table,
written with `recalculateHeadChecksum=True`. -/
def c1Session : WoffLib.WriterSession :=
  { init := { numTables := 1, flavor := [0, 1, 0, 0], majorVersion := 1,
              minorVersion := 0, recalculateHeadChecksum := true },
    tableCalls := [{ tag := Validate.headTag, data := bigHeadData, pre := none }],
    metadataCall := none, privateCall := none }

def c1Output : Except WoffLib.WErr WoffLib.WriterOutput :=
  WoffLib.runWriter extId c1Session

def c1Bytes : Bytes :=
  match c1Output with
  | .ok o => o.bytes
  | .error _ => []

end Woff

namespace Woff

/-- The §4.3 kernel derivation as the specification states it (refinement
reference for claim C2, written from the spec's words, not from the code):
synthesized sfnt header plus tag-sorted directory whose offsets start
after the directory and advance by the 4-byte-padded `origLength` of each
preceding table (in file order); the sum of every table's stored
`origChecksum` plus the checksum of the directory block; and
`adjustment = (0xB1B0AFBA - sum) mod 2^32`. -/
def specHeadAdjustment (data : Bytes) : Option Nat := do
  let header ← unpackHeaderOpt data
  let directory ← unpackDirectoryOpt data
  let n := header.numTables
  let byOffset := sortByLe (fun a b => a.offset ≤ b.offset) directory
  let withOffsets := (byOffset.foldl
    (fun (acc : List (DirEntry × Nat) × Nat) e =>
      (acc.1 ++ [(e, acc.2)], acc.2 + (e.origLength + 3) / 4 * 4))
    ([], sfntHeaderSize + sfntDirectoryEntrySize * n)).1
  let sr := Validate.getSearchRange n
  let dir := (sortByLe (fun a b => bytesLe a.1.tag b.1.tag) withOffsets).foldl
    (fun acc p => acc ++ Validate.packSfntEntry p.1.tag p.1.origChecksum p.2 p.1.origLength)
    (Validate.packSfntHeader header.flavor n sr.1 sr.2.1 sr.2.2)
  let padded := dir ++ List.replicate ((4 - dir.length % 4) % 4) 0
  let total := (directory.map (·.origChecksum)).sum + (Validate.toWords padded).sum % 4294967296
  pure ((((0xB1B0AFBA : Int) - (total : Int)) % 4294967296).toNat)

/-- Hand-built WOFF for claim C2: a single stored (uncompressed) `head`
table of 54 bytes, 0xFF everywhere except that bytes 8..12 hold exactly
the §4.3 adjustment, so the file satisfies the claim's description of
t-headchecksum. -/
def c2Checksum : Nat := Validate.calcChecksum (some Validate.headTag) bigHeadData

def c2Entry : DirEntry :=
  { tag := Validate.headTag, offset := 64, compLength := 54, origLength := 54,
    origChecksum := c2Checksum }

def c2Header : WoffHeader :=
  { signature := [119, 79, 70, 70], flavor := [0, 1, 0, 0], length := 120,
    numTables := 1, reserved := 0, totalSfntSize := 84, majorVersion := 1,
    minorVersion := 0, metaOffset := 0, metaLength := 0, metaOrigLength := 0,
    privOffset := 0, privLength := 0 }

def c2Pre : Bytes := packHeader c2Header ++ packDirEntry c2Entry

/-- The §4.3 adjustment of the file (computable before the head payload is
patched, since it depends only on the header and directory). -/
def c2Adj : Nat := (specHeadAdjustment (c2Pre ++ bigHeadData ++ [0, 0])).getD 0

def c2HeadData : Bytes := bigHeadData.take 8 ++ u32be c2Adj ++ bigHeadData.drop 12

def c2Bytes : Bytes := c2Pre ++ c2HeadData ++ [0, 0]

/-- WOFF for claim C3: one table whose `compLength` (4) is below its
`origLength` (8) but whose stored bytes are not a zlib stream; every test
before d-checksum continues. -/
def c3Entry : DirEntry :=
  { tag := [97, 98, 99, 100], offset := 64, compLength := 4, origLength := 8,
    origChecksum := 0 }

def c3Header : WoffHeader :=
  { signature := [119, 79, 70, 70], flavor := [116, 114, 117, 101], length := 68,
    numTables := 1, reserved := 0, totalSfntSize := 36, majorVersion := 1,
    minorVersion := 0, metaOffset := 0, metaLength := 0, metaOrigLength := 0,
    privOffset := 0, privLength := 0 }

def c3Bytes : Bytes := packHeader c3Header ++ packDirEntry c3Entry ++ [0, 0, 0, 0]

/-- Header-only WOFF for claim C5, with the unknown flavor "XXXX". -/
def c5Header : WoffHeader :=
  { signature := [119, 79, 70, 70], flavor := [88, 88, 88, 88], length := 44,
    numTables := 0, reserved := 0, totalSfntSize := 12, majorVersion := 1,
    minorVersion := 0, metaOffset := 0, metaLength := 0, metaOrigLength := 0,
    privOffset := 0, privLength := 0 }

def c5Bytes : Bytes := packHeader c5Header

/-- The empty font of scenario S1 (claim C4): no tables, the default empty
metadata element, no private data. -/
def emptyFont : WoffLib.WOFFFontModel :=
  { flavor := [0, 1, 0, 0], majorVersion := 0, minorVersion := 0, tables := [],
    metadata := some (Xml.elem "metadata" [("version", "1.0")] none []),
    privateData := none, tableOrder := none }

/-- The metadata tree of scenario S3 (claim C7). -/
def c7Tree : Xml :=
  Xml.elem "metadata" [("version", "1.0")] none
    [Xml.elem "uniqueid" [("id", "com.ex.f.1")] none []]

/-- The serialised metadata the writer emits for `c7Tree`: the library
serialisation (which carries no declaration for utf-8) with the
declaration prepended by `save`. -/
def c7MetaStr : String :=
  WoffLib.xmlDeclaration ++
  "<metadata version=\"1.0\"><uniqueid id=\"com.ex.f.1\" /></metadata>"

def c7MetaBytes : Bytes := WoffLib.strToBytes c7MetaStr

/-- The font of scenario S3: one four-byte table plus the metadata tree. -/
def c7Font : WoffLib.WOFFFontModel :=
  { flavor := [0, 1, 0, 0], majorVersion := 1, minorVersion := 0,
    tables := [([97, 98, 99, 100], [1, 2, 3, 4])],
    metadata := some c7Tree, privateData := none, tableOrder := none }

/-- The duplicate-language element of claim C9: one `text` child without a
`lang` attribute and one with the explicit value `lang="undefined"`. -/
def c9Element : Xml :=
  Xml.elem "description" [] none
    [Xml.elem "text" [] (some "a") [],
     Xml.elem "text" [("lang", "undefined")] (some "b") []]

/-- WOFF for claim C10: a single directory entry whose offset (0) is
before the end of the header/directory; every test before d-borders
continues. -/
def c10Entry : DirEntry :=
  { tag := [97, 98, 99, 100], offset := 0, compLength := 0, origLength := 0,
    origChecksum := 0 }

def c10Header : WoffHeader :=
  { signature := [119, 79, 70, 70], flavor := [116, 114, 117, 101], length := 64,
    numTables := 1, reserved := 0, totalSfntSize := 28, majorVersion := 1,
    minorVersion := 0, metaOffset := 0, metaLength := 0, metaOrigLength := 0,
    privOffset := 0, privLength := 0 }

def c10Bytes : Bytes := packHeader c10Header ++ packDirEntry c10Entry

/-- Writer state for claim C6: one caller-built table whose entry is
consistent with its four data bytes. -/
def c6GoodState : WoffLib.WOFFWriterState :=
  { init := { numTables := 1, flavor := [0, 1, 0, 0], majorVersion := 1,
              minorVersion := 0, recalculateHeadChecksum := true },
    tables := [([97, 98, 99, 100],
      ⟨0, { tag := [97, 98, 99, 100], offset := 0, compLength := 4, origLength := 4,
            origChecksum := WoffLib.calcTableChecksum [97, 98, 99, 100] [1, 2, 3, 4] },
       [1, 2, 3, 4]⟩)],
    metadata := none, metaOrigLength := 0, metaLength := 0,
    privateData := none, privLength := 0 }

/-- The directory the writer emits for `c6GoodState`. -/
def c6GoodDir : List DirEntry :=
  match WoffLib.close extId c6GoodState with
  | .ok o => o.directory
  | .error _ => []

/-- Writer state whose single caller-supplied entry violates
`compLength ≤ origLength`. -/
def c6BadState : WoffLib.WOFFWriterState :=
  { init := { numTables := 1, flavor := [0, 1, 0, 0], majorVersion := 1,
              minorVersion := 0, recalculateHeadChecksum := true },
    tables := [([97, 98, 99, 100],
      ⟨0, { tag := [97, 98, 99, 100], offset := 0, compLength := 8, origLength := 4,
            origChecksum := 0 }, [1, 2, 3, 4, 5, 6, 7, 8]⟩)],
    metadata := none, metaOrigLength := 0, metaLength := 0,
    privateData := none, privLength := 0 }

/-- Writer state for claim C8: three stored metadata bytes (as left by
`setMetadata` with caller-supplied lengths), no tables, no private data. -/
def c8MetaState : WoffLib.WOFFWriterState :=
  { init := { numTables := 0, flavor := [0, 1, 0, 0], majorVersion := 1,
              minorVersion := 0, recalculateHeadChecksum := true },
    tables := [], metadata := some [60, 97, 62], metaOrigLength := 3,
    metaLength := 3, privateData := none, privLength := 0 }

/-- `c8MetaState` with two bytes of private data following the metadata. -/
def c8PrivState : WoffLib.WOFFWriterState :=
  { c8MetaState with privateData := some [9, 9], privLength := 2 }

/-- The writer output for `c8MetaState` (the error arm never runs: `close`
succeeds on this state). -/
def c8MetaOut : WoffLib.WriterOutput :=
  match WoffLib.close extId c8MetaState with
  | .ok o => o
  | .error _ => WoffLib.closeOutput c8MetaState

/-- The writer output for `c8PrivState`. -/
def c8PrivOut : WoffLib.WriterOutput :=
  match WoffLib.close extId c8PrivState with
  | .ok o => o
  | .error _ => WoffLib.closeOutput c8PrivState

/-- The writer state `save` hands to `close` for the S3 font `c7Font`:
one `abcd` table prepared by `_prepTable` and the compressed serialised
metadata with its two lengths. -/
def c7State (ext : Ext) : WoffLib.WOFFWriterState :=
  let pair := WoffLib.prepTable ext [97, 98, 99, 100] [1, 2, 3, 4] none
  { init := { numTables := 1, flavor := [0, 1, 0, 0], majorVersion := 1,
              minorVersion := 0, recalculateHeadChecksum := true },
    tables := [([97, 98, 99, 100], ⟨0, pair.1, pair.2⟩)],
    metadata := some (ext.deflate c7MetaBytes),
    metaOrigLength := c7MetaBytes.length,
    metaLength := (ext.deflate c7MetaBytes).length,
    privateData := none, privLength := 0 }

/-- The writer output of saving `c7Font` under the identity codec (the
error arm never runs: the save succeeds). -/
def c7Out : WoffLib.WriterOutput :=
  match WoffLib.save extId c7Font true true with
  | .ok o => o
  | .error _ => WoffLib.closeOutput (c7State extId)

end Woff

namespace Woff

deriving instance DecidableEq for Except

/-- **C1** (code_bug evaluation): writing a font whose single `head` table
is 54 bytes of 0xFF with `recalculateHeadChecksum=True` succeeds, and the
validator's t-headchecksum test then emits an ERROR (not PASS) on the
emitted stream: `calcHeadChecksum` returns the unreduced
`0xB1B0AFBA - sum` (here below `-2^31`), which can never equal the signed
32-bit reading of the stored field, even though the stored field is
exactly the writer's `(0xB1B0AFBA - sum) & 0xffffffff`. -/
theorem c1_writer_output_fails_headchecksum_test :
    c1Output.isOk = true ∧
    (Validate.testHeadCheckSumAdjustment extId c1Bytes).map
      (fun r => (r.1.map Finding.kind, r.2)) = .ok ([FKind.error], false) := by
  constructor
  · decide
  · decide

/-- **C2** (code_bug evaluation): `c2Bytes` is a WOFF whose stored
`head.checkSumAdjustment` (the unsigned u32 at bytes 8..12 of the
decompressed head table) equals exactly the §4.3 kernel adjustment the
claim describes, yet `testHeadCheckSumAdjustment` reports an ERROR,
because the code compares the *signed* reading against the *unreduced*
difference `0xB1B0AFBA - sum`. -/
theorem c2_spec_conforming_file_fails_headchecksum_test :
    (Validate.unpackTableData extId c2Bytes).map
      (fun ts => beAt (dictGet ts Validate.headTag []) 8 4) = .ok c2Adj ∧
    specHeadAdjustment c2Bytes = some c2Adj ∧
    (Validate.testHeadCheckSumAdjustment extId c2Bytes).map
      (fun r => (r.1.map Finding.kind, r.2)) = .ok ([FKind.error], false) := by
  refine ⟨by decide, by decide, by decide⟩

/-- **C3** (code_bug evaluation): on `c3Bytes` every test before
d-checksum returns continue, and then `testDirectoryChecksums` calls
`unpackTableData` unguarded, so the zlib failure propagates out of the
test and out of `validateFont`'s loop as an exception instead of being
recorded as a finding. -/
theorem c3_zlib_failure_escapes_validateFont :
    Validate.testDirectoryChecksums extFailInflate c3Bytes = .error .zlibError ∧
    Validate.validateFont extFailInflate c3Bytes = .error .zlibError := by
  refine ⟨by decide, by decide⟩

/-- **C5** (counterexample): on a header whose flavor is "XXXX",
`testHeaderFlavor` emits an ERROR finding — not the WARNING the claim
requires — and returns continue. -/
theorem c5_unknown_flavor_logs_error_not_warning :
    Validate.testHeaderFlavor c5Bytes =
      .ok ([⟨FKind.error, "Unknown flavor: XXXX."⟩], false) := by
  decide

end Woff

namespace Woff

/-- **C5 amended**: for every input whose header parses and whose flavor
is unknown, testHeaderFlavor emits exactly one ERROR finding naming the
flavor (not a WARNING) and does not stop the pipeline. -/
theorem c5_amended_unknown_flavor_error (data : Bytes) (h : WoffHeader)
    (hp : unpackHeaderOpt data = some h)
    (hf : h.flavor ≠ Validate.ottoTag ∧ h.flavor ≠ Validate.ttfFlavor ∧
          h.flavor ≠ Validate.trueTag) :
    Validate.testHeaderFlavor data =
      .ok ([⟨FKind.error, "Unknown flavor: " ++ Validate.bytesToStr h.flavor ++ "."⟩],
           false) := by
  unfold Validate.testHeaderFlavor
  rw [hp]
  simp only [liftOpt, bind, Except.bind, if_pos hf]
  rfl

/-- Witness for `c5_amended_unknown_flavor_error` at the concrete input
`c5Bytes`. -/
theorem c5_amended_witness :
    Validate.testHeaderFlavor c5Bytes =
      .ok ([⟨FKind.error,
            "Unknown flavor: " ++ Validate.bytesToStr c5Header.flavor ++ "."⟩],
           false) :=
  c5_amended_unknown_flavor_error c5Bytes c5Header (by decide)
    ⟨by decide, by decide, by decide⟩

end Woff

namespace Woff.WoffLib

/-- `_handleHeadChecksum` can only raise the assertion failure. -/
theorem handleHeadChecksum_error {ext : Ext} {st : WOFFWriterState} {e : WErr}
    (h : handleHeadChecksum ext st = .error e) : e = .assertionFailure := by
  simp only [handleHeadChecksum] at h
  split at h
  · exact Except.noConfusion h
  · split at h
    · simp only [Except.error.injEq] at h
      exact h.symm
    · exact Except.noConfusion h

/-- `_checkTableConformance` can only raise a conformance error or a zlib
error. -/
theorem checkTableConformance_error {ext : Ext} {entry : DirEntry} {data : Bytes}
    {e : WErr} (h : checkTableConformance ext entry data = .error e) :
    e = .conformance entry.tag ∨ e = .zlib := by
  simp only [checkTableConformance, bind, Except.bind, pure, Except.pure] at h
  split at h
  · simp only [Except.error.injEq] at h
    exact .inl h.symm
  · split at h
    · split at h
      · split at h
        · simp only [Except.error.injEq] at h
          exact .inl h.symm
        · split at h
          · simp only [Except.error.injEq] at h
            exact .inl h.symm
          · split at h
            · simp only [Except.error.injEq] at h
              exact .inl h.symm
            · exact Except.noConfusion h
      · simp only [Except.error.injEq] at h
        exact .inr h.symm
    · split at h
      · simp only [Except.error.injEq] at h
        exact .inl h.symm
      · split at h
        · simp only [Except.error.injEq] at h
          exact .inl h.symm
        · split at h
          · simp only [Except.error.injEq] at h
            exact .inl h.symm
          · exact Except.noConfusion h

/-- An exception from `forEachM` comes from one of the elements. -/
theorem forEachM_error {ε α : Type} {f : α → Except ε Unit} {l : List α} {e : ε}
    (h : forEachM f l = .error e) : ∃ x ∈ l, f x = .error e := by
  induction l with
  | nil => simp [forEachM] at h
  | cons x xs ih =>
    unfold forEachM at h
    cases hfx : f x with
    | error e' =>
      rw [hfx] at h
      simp only [bind, Except.bind, Except.error.injEq] at h
      exact ⟨x, by simp, by rw [hfx, h]⟩
    | ok u =>
      rw [hfx] at h
      simp only [bind, Except.bind] at h
      obtain ⟨y, hy, hfy⟩ := ih h
      exact ⟨y, by simp [hy], hfy⟩

/-- `forEachM` succeeds exactly when every element's check succeeds. -/
theorem forEachM_ok {ε α : Type} {f : α → Except ε Unit} {l : List α}
    (h : forEachM f l = .ok ()) : ∀ x ∈ l, f x = .ok () := by
  induction l with
  | nil => simp
  | cons x xs ih =>
    unfold forEachM at h
    cases hfx : f x with
    | error e' => rw [hfx] at h; simp [bind, Except.bind] at h
    | ok u =>
      rw [hfx] at h
      simp only [bind, Except.bind] at h
      intro y hy
      rcases List.mem_cons.mp hy with rfl | hmem
      · rw [hfx]
      · exact ih h y hmem

end Woff.WoffLib

namespace Woff

/-- **C4** (counterexample): saving the empty font of scenario S1 does not
raise at all — `WOFFWriter.close` only compares the declared `numTables`
(0) with the number of tables supplied (0) — and it emits a WOFF whose
header declares zero tables. -/
theorem c4_empty_font_save_succeeds :
    (WoffLib.save extId emptyFont true true).map
      (fun o => o.header.numTables) = .ok 0 := by
  decide

/-- **C4 amended**: `close` raises the wrong-number-of-tables error
exactly when the declared `numTables` differs from the number of tables
set (so a `WOFFFont` with zero tables saves successfully, producing a
zero-table WOFF rather than failing). -/
theorem c4_amended_wrong_table_count_iff :
    (∀ (ext : Ext) (st : WoffLib.WOFFWriterState),
      WoffLib.close ext st = .error .wrongNumberOfTables ↔
        st.init.numTables ≠ st.tables.length) ∧
    (WoffLib.save extId emptyFont true true).isOk = true := by
  constructor
  · intro ext st
    constructor
    · intro h
      by_contra hne
      simp only [WoffLib.close, bind, Except.bind, pure, Except.pure] at h
      rw [if_neg (fun hc => hc hne)] at h
      split at h
      · split at h
        · next e heq =>
          simp only [Except.error.injEq] at h
          have := WoffLib.handleHeadChecksum_error heq
          rw [this] at h
          exact WoffLib.WErr.noConfusion h
        · next st' heq =>
          split at h
          · next e heq2 =>
            simp only [Except.error.injEq] at h
            obtain ⟨x, _, hx⟩ := WoffLib.forEachM_error heq2
            rcases WoffLib.checkTableConformance_error hx with rfl | rfl <;>
              exact WoffLib.WErr.noConfusion h
          · exact Except.noConfusion h
      · split at h
        · next e heq2 =>
          simp only [Except.error.injEq] at h
          obtain ⟨x, _, hx⟩ := WoffLib.forEachM_error heq2
          rcases WoffLib.checkTableConformance_error hx with rfl | rfl <;>
            exact WoffLib.WErr.noConfusion h
        · exact Except.noConfusion h
    · intro hne
      simp only [WoffLib.close]
      rw [if_pos hne]
  · decide

end Woff

namespace Woff

theorem mem_insertLe {α : Type} {le : α → α → Bool} {x y : α} {l : List α} :
    y ∈ insertLe le x l ↔ y = x ∨ y ∈ l := by
  induction l with
  | nil => simp [insertLe]
  | cons a as ih =>
    unfold insertLe
    by_cases hle : le a x
    · rw [if_pos hle]
      simp only [List.mem_cons, ih]
      tauto
    · rw [if_neg hle]
      simp only [List.mem_cons]

theorem mem_sortByLe {α : Type} {le : α → α → Bool} {y : α} {l : List α} :
    y ∈ sortByLe le l ↔ y ∈ l := by
  induction l with
  | nil => simp [sortByLe]
  | cons a as ih => simp [sortByLe, mem_insertLe, ih]

theorem dictGet_insert {α β : Type} [DecidableEq α] (m : List (α × β))
    (k k' : α) (v d : β) :
    dictGet (dictInsert k v m) k' d = if k = k' then v else dictGet m k' d := by
  induction m with
  | nil => simp [dictInsert, dictGet]
  | cons p rest ih =>
    obtain ⟨k1, v1⟩ := p
    unfold dictInsert
    by_cases h1 : k1 = k
    · subst h1
      rw [if_pos rfl]
      by_cases h2 : k1 = k'
      · subst h2
        simp [dictGet]
      · simp [dictGet, h2]
    · rw [if_neg h1]
      by_cases h2 : k1 = k'
      · subst h2
        have hkk : ¬ k = k1 := fun hc => h1 hc.symm
        simp [dictGet, hkk]
      · simp [dictGet, h2, ih]

/-- Keys of an association list are pairwise distinct (`dict` invariant). -/
def keysND {α β : Type} (m : List (α × β)) : Prop := (m.map Prod.fst).Nodup

theorem mem_keys_dictInsert {α β : Type} [DecidableEq α] {m : List (α × β)}
    {k k' : α} {v : β} :
    k' ∈ (dictInsert k v m).map Prod.fst ↔ k' = k ∨ k' ∈ m.map Prod.fst := by
  induction m with
  | nil => simp [dictInsert]
  | cons p rest ih =>
    obtain ⟨k1, v1⟩ := p
    unfold dictInsert
    by_cases h1 : k1 = k
    · subst h1
      rw [if_pos rfl]
      simp only [List.map_cons, List.mem_cons]
      tauto
    · rw [if_neg h1]
      simp only [List.map_cons, List.mem_cons, ih]
      tauto

theorem keysND_dictInsert {α β : Type} [DecidableEq α] {m : List (α × β)}
    {k : α} {v : β} (h : keysND m) : keysND (dictInsert k v m) := by
  induction m with
  | nil => simp [keysND, dictInsert]
  | cons p rest ih =>
    obtain ⟨k1, v1⟩ := p
    have hrest : keysND rest := (List.nodup_cons.mp h).2
    have hk1 : k1 ∉ rest.map Prod.fst := (List.nodup_cons.mp h).1
    unfold dictInsert
    by_cases h1 : k1 = k
    · subst h1
      rw [if_pos rfl]
      exact List.nodup_cons.mpr ⟨hk1, hrest⟩
    · rw [if_neg h1]
      refine List.nodup_cons.mpr ⟨?_, ih hrest⟩
      rw [mem_keys_dictInsert]
      rintro (rfl | hmem)
      · exact h1 rfl
      · exact hk1 hmem

theorem mem_of_dictGet_ne {α β : Type} [DecidableEq α] {m : List (α × β)}
    {k : α} {d : β} (h : dictGet m k d ≠ d) : (k, dictGet m k d) ∈ m := by
  induction m with
  | nil => simp [dictGet] at h
  | cons p rest ih =>
    obtain ⟨k1, v1⟩ := p
    by_cases h1 : k1 = k
    · subst h1
      simp [dictGet]
    · simp only [dictGet, if_neg h1] at h ⊢
      exact List.mem_cons_of_mem _ (ih h)

theorem dictGet_of_mem {α β : Type} [DecidableEq α] {m : List (α × β)}
    {k : α} {v d : β} (hnd : keysND m) (hm : (k, v) ∈ m) : dictGet m k d = v := by
  induction m with
  | nil => simp at hm
  | cons p rest ih =>
    obtain ⟨k1, v1⟩ := p
    rcases List.mem_cons.mp hm with heq | hmem
    · obtain ⟨rfl, rfl⟩ := Prod.mk.injEq .. ▸ heq
      simp [dictGet]
    · have hk1 : k1 ∉ rest.map Prod.fst := (List.nodup_cons.mp hnd).1
      have h1 : k1 ≠ k := by
        rintro rfl
        exact hk1 (List.mem_map.mpr ⟨(k1, v), hmem, rfl⟩)
      simp only [dictGet, if_neg h1]
      exact ih (List.nodup_cons.mp hnd).2 hmem

theorem langFold_get (cs : List Xml) (acc : List (String × Nat)) (l : String) :
    dictGet (cs.foldl Validate.langStep acc) l 0 =
      dictGet acc l 0 +
        (cs.filter (fun c => c.tag = "text")).countP
          (fun c => c.attribGet "lang" "undefined" = l) := by
  induction cs generalizing acc with
  | nil => simp
  | cons c cs ih =>
    rw [List.foldl_cons, ih]
    by_cases ht : c.tag = "text"
    · have : ¬ c.tag ≠ "text" := fun hc => hc ht
      simp only [Validate.langStep, if_neg this]
      rw [dictGet_insert]
      by_cases hl : c.attribGet "lang" "undefined" = l
      · rw [if_pos hl]
        simp [List.filter_cons, ht, List.countP_cons, hl]
        omega
      · rw [if_neg hl]
        simp [List.filter_cons, ht, List.countP_cons, hl]
    · simp only [Validate.langStep, if_pos ht]
      simp [List.filter_cons, ht]

theorem langFold_keysND (cs : List Xml) (acc : List (String × Nat))
    (h : keysND acc) : keysND (cs.foldl Validate.langStep acc) := by
  induction cs generalizing acc with
  | nil => exact h
  | cons c cs ih =>
    rw [List.foldl_cons]
    apply ih
    unfold Validate.langStep
    split
    · exact h
    · exact keysND_dictInsert h

end Woff

namespace Woff

/-- The claim's bucket for a `text` child: children lacking a `lang`
attribute form their own bucket (`none`), distinct from every explicit
value (written from the claim's words, as a refinement reference). -/
def specC9Bucket (c : Xml) : Option String :=
  if c.hasAttrib "lang" then some (c.attribGet "lang" "") else none

/-- **C9** (counterexample): in `c9Element` the two `text` children fall
in *distinct* buckets under the claim's reading (one has no `lang`, the
other has the explicit value "undefined"), so the claim predicts no
ERROR; the code nevertheless reports a duplicate of language
"undefined", because the missing attribute defaults to that string. -/
theorem c9_missing_lang_collides_with_explicit_undefined :
    ((c9Element.children.filter (fun c => c.tag = "text")).map specC9Bucket).Nodup ∧
    Validate.testMetadataAbstractTextElementLanguages c9Element "description" =
      ([⟨FKind.error, "More than one instance of language \"undefined\" in the \"description\" element."⟩], true) := by
  refine ⟨by decide, by decide⟩

/-- **C9 amended**: for every element and parent tag, the checker flags a
duplicate exactly when two or more `text` children share the bucket
`attrib.get("lang", "undefined")` — so a child lacking `lang` shares the
bucket of an explicit `lang="undefined"` — and every finding it logs is
an ERROR naming such a bucket and the parent element. -/
theorem c9_amended_duplicate_languages (element : Xml) (tag : String) :
    ((Validate.testMetadataAbstractTextElementLanguages element tag).2 = true ↔
      ∃ l, 2 ≤ (element.children.filter (fun c => c.tag = "text")).countP
        (fun c => c.attribGet "lang" "undefined" = l)) ∧
    (∀ f ∈ (Validate.testMetadataAbstractTextElementLanguages element tag).1,
      ∃ l, 2 ≤ (element.children.filter (fun c => c.tag = "text")).countP
          (fun c => c.attribGet "lang" "undefined" = l) ∧
        f = ⟨FKind.error, "More than one instance of language \"" ++ l ++
              "\" in the \"" ++ tag ++ "\" element."⟩) := by
  have hget : ∀ l, dictGet (element.children.foldl Validate.langStep []) l 0 =
      (element.children.filter (fun c => c.tag = "text")).countP
        (fun c => c.attribGet "lang" "undefined" = l) := by
    intro l
    have := langFold_get element.children [] l
    simpa [dictGet] using this
  have hnd : keysND (element.children.foldl Validate.langStep []) :=
    langFold_keysND _ _ (by simp [keysND])
  simp only [Validate.testMetadataAbstractTextElementLanguages]
  constructor
  · rw [decide_eq_true_eq]
    constructor
    · intro hne
      rw [Ne, List.filterMap_eq_nil_iff] at hne
      push_neg at hne
      obtain ⟨p, hp, hfp⟩ := hne
      rw [mem_sortByLe] at hp
      by_cases hgt : p.2 > 1
      · refine ⟨p.1, ?_⟩
        rw [← hget p.1, dictGet_of_mem hnd (by simpa using hp)]
        omega
      · rw [if_neg hgt] at hfp
        exact absurd rfl hfp
    · rintro ⟨l, hl⟩
      have hdg : dictGet (element.children.foldl Validate.langStep []) l 0 ≠ 0 := by
        rw [hget l]
        omega
      have hmem := mem_of_dictGet_ne hdg
      have hin : (⟨FKind.error, "More than one instance of language \"" ++ l ++
            "\" in the \"" ++ tag ++ "\" element."⟩ : Finding) ∈
          List.filterMap
            (fun p => if p.2 > 1 then
              some (Finding.mk .error ("More than one instance of language \"" ++ p.1 ++
                "\" in the \"" ++ tag ++ "\" element."))
              else none)
            (sortByLe Validate.pairNatLe (List.foldl Validate.langStep [] element.children)) := by
        refine List.mem_filterMap.mpr
          ⟨(l, dictGet (element.children.foldl Validate.langStep []) l 0), ?_, ?_⟩
        · rw [mem_sortByLe]
          exact hmem
        · rw [if_pos (by rw [hget l]; omega)]
      exact List.ne_nil_of_mem hin
  · intro f hf
    obtain ⟨p, hp, hfp⟩ := List.mem_filterMap.mp hf
    rw [mem_sortByLe] at hp
    by_cases hgt : p.2 > 1
    · rw [if_pos hgt, Option.some.injEq] at hfp
      refine ⟨p.1, ?_, hfp.symm⟩
      rw [← hget p.1, dictGet_of_mem hnd (by simpa using hp)]
      omega
    · rw [if_neg hgt] at hfp
      exact Option.noConfusion hfp

end Woff

namespace Woff

/-- The per-entry disjunction of d-borders errors implies the entry's
result is an ERROR with the stop flag. -/
theorem borderResult_of_bad {h : WoffHeader} {t : DirEntry}
    (hbad : t.offset < headerSize + directorySize * h.numTables ∨
        t.offset > h.length ∨ t.offset + t.compLength > h.length ∨
        (t.compLength : Int) > (h.length : Int) - (headerSize + directorySize * h.numTables : Nat)) :
    (Validate.borderResult h t).2 = true ∧ (Validate.borderResult h t).1.kind = FKind.error := by
  unfold Validate.borderResult
  by_cases c1 : t.offset < headerSize + directorySize * h.numTables
  · simp [c1]
  · rw [if_neg c1]
    by_cases c2 : t.offset > h.length
    · simp [c2]
    · rw [if_neg c2]
      by_cases c3 : t.offset + t.compLength > h.length
      · simp [c3]
      · rw [if_neg c3]
        have c4 : (t.compLength : Int) > (h.length : Int) - (headerSize + directorySize * h.numTables : Nat) := by
          rcases hbad with hb | hb | hb | hb
          · exact absurd hb c1
          · exact absurd hb c2
          · exact absurd hb c3
          · exact hb
        rw [if_pos c4]
        exact ⟨rfl, rfl⟩

/-- **C10**: whenever the header and directory unpack, some entry
violates the border conditions, and the ten preceding tests all continue,
`testDirectoryBorders` logs an ERROR and returns stop, and the whole
pipeline ends at the d-borders group with `haveReadError = true`. -/
theorem c10_borders_fatal (ext : Ext) (data : Bytes) (h : WoffHeader) (dir : List DirEntry)
    (fs1 fs2 fs3 fs4 fs5 fs6 fs7 fs8 fs9 fs10 : List Finding)
    (hh : unpackHeaderOpt data = some h)
    (hd : unpackDirectoryOpt data = some dir)
    (hbad : ∃ e ∈ dir, e.offset < headerSize + directorySize * h.numTables ∨
        e.offset > h.length ∨ e.offset + e.compLength > h.length ∨
        (e.compLength : Int) > (h.length : Int) - (headerSize + directorySize * h.numTables : Nat))
    (h1 : Validate.testHeaderSize data = .ok (fs1, false))
    (h2 : Validate.testHeaderStructure data = .ok (fs2, false))
    (h3 : Validate.testHeaderSignature data = .ok (fs3, false))
    (h4 : Validate.testHeaderFlavor data = .ok (fs4, false))
    (h5 : Validate.testHeaderLength data = .ok (fs5, false))
    (h6 : Validate.testHeaderReserved data = .ok (fs6, false))
    (h7 : Validate.testHeaderTotalSFNTSize data = .ok (fs7, false))
    (h8 : Validate.testHeaderMajorVersionAndMinorVersion data = .ok (fs8, false))
    (h9 : Validate.testHeaderNumTables data = .ok (fs9, false))
    (h10 : Validate.testDirectoryTableOrder data = .ok (fs10, false)) :
    ∃ bfs, Validate.testDirectoryBorders data = .ok (bfs, true) ∧
      (∃ f ∈ bfs, f.kind = FKind.error) ∧
      Validate.validateFont ext data = .ok
        ⟨[("Header - Size", fs1), ("Header - Structure", fs2),
          ("Header - Signature", fs3), ("Header - Flavor", fs4),
          ("Header - Length", fs5), ("Header - Reserved", fs6),
          ("Header - Total sfnt Size", fs7), ("Header - Version", fs8),
          ("Header - Number of Tables", fs9), ("Directory - Table Order", fs10),
          ("Directory - Table Borders", bfs)], true⟩ := by
  obtain ⟨e, he, hbe⟩ := hbad
  have hres := @borderResult_of_bad h e hbe
  have hany : (dir.map (Validate.borderResult h)).any Prod.snd = true := by
    rw [List.any_eq_true]
    exact ⟨Validate.borderResult h e, List.mem_map.mpr ⟨e, he, rfl⟩, hres.1⟩
  have hborders : Validate.testDirectoryBorders data =
      .ok ((dir.map (Validate.borderResult h)).map Prod.fst, true) := by
    unfold Validate.testDirectoryBorders
    rw [hh, hd]
    simp only [liftOpt, bind, Except.bind, pure, Except.pure, hany]
  refine ⟨(dir.map (Validate.borderResult h)).map Prod.fst, hborders, ?_, ?_⟩
  · exact ⟨(Validate.borderResult h e).1,
      List.mem_map.mpr ⟨Validate.borderResult h e, List.mem_map.mpr ⟨e, he, rfl⟩, rfl⟩,
      hres.2⟩
  · simp only [Validate.validateFont, Validate.tests, Validate.runTests,
      h1, h2, h3, h4, h5, h6, h7, h8, h9, h10, hborders,
      bind, Except.bind, Bool.false_eq_true, if_false, if_true, ite_true, ite_false]


/-- Witness for `c10_borders_fatal` at `c10Bytes` (single entry with
offset 0). -/
theorem c10_borders_fatal_witness :
    ∃ bfs, Validate.testDirectoryBorders c10Bytes = .ok (bfs, true) ∧
      (∃ f ∈ bfs, f.kind = FKind.error) ∧
      Validate.validateFont extId c10Bytes = .ok
        ⟨[("Header - Size", [⟨FKind.pass, "The header length is correct."⟩]),
          ("Header - Structure", [⟨FKind.pass, "The header structure is correct."⟩]),
          ("Header - Signature", [⟨FKind.pass, "The signature is correct."⟩]),
          ("Header - Flavor", [⟨FKind.pass, "The flavor is a correct value."⟩]),
          ("Header - Length", [⟨FKind.pass, "The length defined in the header is correct."⟩]),
          ("Header - Reserved", [⟨FKind.pass, "The value in the reserved field is correct."⟩]),
          ("Header - Total sfnt Size", [⟨FKind.pass, "The total sfnt size is valid."⟩]),
          ("Header - Version", [⟨FKind.pass, "The major version and minor version are valid numbers."⟩]),
          ("Header - Number of Tables", [⟨FKind.pass, "The number of tables defined in the header is valid."⟩]),
          ("Directory - Table Order", [⟨FKind.pass, "The table directory entries are stored in the proper order."⟩]),
          ("Directory - Table Borders", bfs)], true⟩ :=
  c10_borders_fatal extId c10Bytes c10Header [c10Entry]
    [⟨FKind.pass, "The header length is correct."⟩]
    [⟨FKind.pass, "The header structure is correct."⟩]
    [⟨FKind.pass, "The signature is correct."⟩]
    [⟨FKind.pass, "The flavor is a correct value."⟩]
    [⟨FKind.pass, "The length defined in the header is correct."⟩]
    [⟨FKind.pass, "The value in the reserved field is correct."⟩]
    [⟨FKind.pass, "The total sfnt size is valid."⟩]
    [⟨FKind.pass, "The major version and minor version are valid numbers."⟩]
    [⟨FKind.pass, "The number of tables defined in the header is valid."⟩]
    [⟨FKind.pass, "The table directory entries are stored in the proper order."⟩]
    (by decide) (by decide) ⟨c10Entry, by decide, by decide⟩
    (by decide) (by decide) (by decide) (by decide) (by decide)
    (by decide) (by decide) (by decide) (by decide) (by decide)

end Woff

namespace Woff.WoffLib

/-- `dict` update keeps every binding stored under a different key. -/
theorem mem_dictInsert_of_ne {α β : Type} [DecidableEq α] {m : List (α × β)}
    {k : α} {v : β} {p : α × β} (hp : p ∈ m) (hne : p.1 ≠ k) :
    p ∈ dictInsert k v m := by
  induction m with
  | nil => cases hp
  | cons q rest ih =>
    obtain ⟨k1, v1⟩ := q
    unfold dictInsert
    by_cases h1 : k1 = k
    · rw [if_pos h1]
      rcases List.mem_cons.mp hp with rfl | hmem
      · exact absurd h1 hne
      · exact List.mem_cons_of_mem _ hmem
    · rw [if_neg h1]
      rcases List.mem_cons.mp hp with rfl | hmem
      · exact List.mem_cons_self _ _
      · exact List.mem_cons_of_mem _ (ih hmem)

/-- A successful `_handleHeadChecksum` keeps every non-`head` binding. -/
theorem handleHeadChecksum_ok_mem {ext : Ext} {st st' : WOFFWriterState}
    (h : handleHeadChecksum ext st = .ok st') {p : Bytes × TableRec}
    (hp : p ∈ st.tables) (hne : p.1 ≠ Validate.headTag) : p ∈ st'.tables := by
  simp only [handleHeadChecksum] at h
  split at h
  · simp only [pure, Except.pure, Except.ok.injEq] at h
    subst h
    exact hp
  · split at h
    · exact Except.noConfusion h
    · simp only [pure, Except.pure, Except.ok.injEq] at h
      subst h
      exact mem_dictInsert_of_ne hp hne

/-- A successful `_handleHeadChecksum` changes only the `tables` field. -/
theorem handleHeadChecksum_ok_fields {ext : Ext} {st st' : WOFFWriterState}
    (h : handleHeadChecksum ext st = .ok st') :
    st'.init = st.init ∧ st'.metadata = st.metadata ∧
    st'.metaOrigLength = st.metaOrigLength ∧ st'.metaLength = st.metaLength ∧
    st'.privateData = st.privateData ∧ st'.privLength = st.privLength := by
  simp only [handleHeadChecksum] at h
  split at h
  · simp only [pure, Except.pure, Except.ok.injEq] at h
    subst h
    exact ⟨rfl, rfl, rfl, rfl, rfl, rfl⟩
  · split at h
    · exact Except.noConfusion h
    · simp only [pure, Except.pure, Except.ok.injEq] at h
      subst h
      exact ⟨rfl, rfl, rfl, rfl, rfl, rfl⟩

/-- `_checkTableConformance` rejects an entry with
`origLength < compLength` outright. -/
theorem checkTableConformance_of_lt {ext : Ext} {entry : DirEntry} {data : Bytes}
    (h : entry.origLength < entry.compLength) :
    checkTableConformance ext entry data = .error (.conformance entry.tag) := by
  simp only [checkTableConformance, bind, Except.bind]
  rw [if_pos h]

/-- A passing conformance check certifies `compLength ≤ origLength`. -/
theorem checkTableConformance_ok_le {ext : Ext} {entry : DirEntry} {data : Bytes}
    (h : checkTableConformance ext entry data = .ok ()) :
    entry.compLength ≤ entry.origLength := by
  by_contra hlt
  rw [checkTableConformance_of_lt (Nat.lt_of_not_le hlt)] at h
  exact Except.noConfusion h

/-- Membership through `close`'s offset-assignment fold: every produced
record comes from the accumulator or from an input record with only its
`offset` field rewritten. -/
theorem mem_foldl_assignOffsets :
    ∀ (l acc : List (Bytes × TableRec)) (k : Nat) (q : Bytes × TableRec),
      q ∈ (l.foldl assignOffsets (acc, k)).1 →
      q ∈ acc ∨ ∃ p ∈ l, q.1 = p.1 ∧ q.2.entry.compLength = p.2.entry.compLength ∧
        q.2.entry.origLength = p.2.entry.origLength := by
  intro l
  induction l with
  | nil =>
    intro acc k q hq
    exact .inl hq
  | cons p rest ih =>
    intro acc k q hq
    simp only [List.foldl_cons, assignOffsets] at hq
    rcases ih _ _ q hq with hin | ⟨p', hp', h1, h2, h3⟩
    · rcases List.mem_append.mp hin with hin | hin
      · exact .inl hin
      · rcases List.mem_singleton.mp hin with rfl
        exact .inr ⟨p, List.mem_cons_self _ _, rfl, rfl, rfl⟩
    · exact .inr ⟨p', List.mem_cons_of_mem _ hp', h1, h2, h3⟩

/-- The directory `closeOutput` emits, spelled out. -/
theorem closeOutput_directory (st : WOFFWriterState) :
    (closeOutput st).directory =
      (sortByLe (fun a b => bytesLe a.1 b.1)
        ((sortByLe (fun a b => a.2.index ≤ b.2.index) st.tables).foldl assignOffsets
          ([], headerSize + directorySize * st.init.numTables)).1).map
        (fun p => p.2.entry) := rfl

/-- What a successful `close` certifies: the output is the emission of an
intermediate state whose every table passed conformance, which keeps every
binding the head-checksum pass cannot touch, and which agrees with the
original state on every field other than `tables`. -/
theorem close_ok_elim {ext : Ext} {st : WOFFWriterState} {out : WriterOutput}
    (h : close ext st = .ok out) :
    ∃ st', out = closeOutput st' ∧
      (∀ q ∈ st'.tables, checkTableConformance ext q.2.entry q.2.data = .ok ()) ∧
      (∀ p ∈ st.tables,
        (p.1 ≠ Validate.headTag ∨ st.init.recalculateHeadChecksum = false) →
        p ∈ st'.tables) ∧
      st'.init = st.init ∧ st'.metadata = st.metadata ∧
      st'.metaOrigLength = st.metaOrigLength ∧ st'.metaLength = st.metaLength ∧
      st'.privateData = st.privateData ∧ st'.privLength = st.privLength := by
  simp only [close, bind, Except.bind, pure, Except.pure] at h
  split at h
  · exact Except.noConfusion h
  · split at h
    · next hcond =>
      split at h
      · exact Except.noConfusion h
      · next st1 heq =>
        split at h
        · exact Except.noConfusion h
        · next u heq2 =>
          cases u
          simp only [Except.ok.injEq] at h
          obtain ⟨hf1, hf2, hf3, hf4, hf5, hf6⟩ := handleHeadChecksum_ok_fields heq
          refine ⟨st1, h.symm, ?_, ?_, hf1, hf2, hf3, hf4, hf5, hf6⟩
          · intro q hq
            exact forEachM_ok heq2 q (mem_sortByLe.mpr hq)
          · intro p hp hdisj
            rcases hdisj with hne | hrec
            · exact handleHeadChecksum_ok_mem heq hp hne
            · rw [hrec] at hcond
              exact Bool.noConfusion hcond.1
    · next hcond =>
      split at h
      · exact Except.noConfusion h
      · next u heq2 =>
        cases u
        simp only [Except.ok.injEq] at h
        refine ⟨st, h.symm, ?_, fun p hp _ => hp, rfl, rfl, rfl, rfl, rfl, rfl⟩
        intro q hq
        exact forEachM_ok heq2 q (mem_sortByLe.mpr hq)

end Woff.WoffLib

namespace Woff.WoffLib

/-- Emission layout with metadata and no private data: the file ends at
`metaOffset + metaLength` and the metadata block is stored unpadded. -/
theorem closeOutput_meta_no_priv {st : WOFFWriterState} {m : Bytes}
    (hmeta : st.metadata = some m) (hpriv : st.privateData = none) :
    (closeOutput st).header.length =
      (closeOutput st).header.metaOffset + (closeOutput st).header.metaLength ∧
    (closeOutput st).metaBlock = m ∧ (closeOutput st).privBlock = [] := by
  simp [closeOutput, hmeta, hpriv]

/-- Emission layout with metadata followed by private data: the metadata
block is zero-padded to a 4-byte boundary, `privOffset` is that padded
end, and the file ends at `privOffset + privLength`. -/
theorem closeOutput_meta_priv {st : WOFFWriterState} {m pd : Bytes}
    (hmeta : st.metadata = some m) (hpriv : st.privateData = some pd) :
    (closeOutput st).header.privOffset =
      (closeOutput st).header.metaOffset +
        calc4BytePaddedLength (closeOutput st).header.metaLength ∧
    (closeOutput st).metaBlock =
      m ++ List.replicate (calc4BytePaddedLength st.metaLength - st.metaLength) 0 ∧
    (closeOutput st).header.length =
      (closeOutput st).header.privOffset + (closeOutput st).header.privLength ∧
    (closeOutput st).privBlock = pd := by
  refine ⟨?_, ?_, ?_, ?_⟩
  · simp [closeOutput, calc4BytePaddedLength, hmeta, hpriv]
    omega
  · simp [closeOutput, hmeta, hpriv]
  · simp [closeOutput, hmeta, hpriv]
  · simp [closeOutput, hmeta, hpriv]

end Woff.WoffLib

namespace Woff

/-- **C6** (compression monotonicity): (1) every directory entry of a
successfully closed writer satisfies `compLength ≤ origLength`; (2) when
the writer compresses a table itself and deflate does not shrink the
bytes, the uncompressed bytes are stored with `compLength = origLength`;
(3) a caller-supplied entry violating the invariant (outside the
recalculated `head` slot) makes `close` fail before emission. -/
theorem c6_compression_monotonicity :
    (∀ (ext : Ext) (st : WoffLib.WOFFWriterState) (out : WoffLib.WriterOutput),
      WoffLib.close ext st = .ok out →
      ∀ e ∈ out.directory, e.compLength ≤ e.origLength) ∧
    (∀ (ext : Ext) (tag data : Bytes),
      data.length ≤ (ext.deflate data).length →
      WoffLib.prepTable ext tag data none =
        ({ tag := tag, offset := 0, compLength := data.length,
           origLength := data.length,
           origChecksum := WoffLib.calcTableChecksum tag data }, data)) ∧
    (∀ (ext : Ext) (st : WoffLib.WOFFWriterState) (p : Bytes × WoffLib.TableRec),
      p ∈ st.tables → p.2.entry.origLength < p.2.entry.compLength →
      (p.1 ≠ Validate.headTag ∨ st.init.recalculateHeadChecksum = false) →
      (WoffLib.close ext st).isOk = false) := by
  refine ⟨?_, ?_, ?_⟩
  · intro ext st out h e he
    obtain ⟨st', rfl, hconf, -, -, -, -, -, -, -⟩ := WoffLib.close_ok_elim h
    rw [WoffLib.closeOutput_directory] at he
    rw [List.mem_map] at he
    obtain ⟨q, hq, rfl⟩ := he
    rw [mem_sortByLe] at hq
    rcases WoffLib.mem_foldl_assignOffsets _ _ _ _ hq with hin | ⟨p, hp, -, h2, h3⟩
    · cases hin
    · rw [mem_sortByLe] at hp
      rw [h2, h3]
      exact WoffLib.checkTableConformance_ok_le (hconf p hp)
  · intro ext tag data hle
    simp only [WoffLib.prepTable]
    rw [if_pos hle]
  · intro ext st p hp hlt hdisj
    cases hcl : WoffLib.close ext st with
    | error e => rfl
    | ok out =>
      exfalso
      obtain ⟨st', -, hconf, hpres, -, -, -, -, -, -⟩ := WoffLib.close_ok_elim hcl
      have hle := WoffLib.checkTableConformance_ok_le (hconf p (hpres p hp hdisj))
      omega

/-- C6 witness at concrete inputs: the emitted directory of a one-table
state, the no-shrink `prepTable` call under the identity deflate, and a
rejected violating state. -/
theorem c6_compression_monotonicity_witness :
    (∀ e ∈ c6GoodDir, e.compLength ≤ e.origLength) ∧
    WoffLib.prepTable extId [97, 98, 99, 100] [1, 2, 3, 4] none =
      ({ tag := [97, 98, 99, 100], offset := 0, compLength := 4, origLength := 4,
         origChecksum := WoffLib.calcTableChecksum [97, 98, 99, 100] [1, 2, 3, 4] },
       [1, 2, 3, 4]) ∧
    (WoffLib.close extId c6BadState).isOk = false := by
  refine ⟨?_, ?_, ?_⟩
  · intro e he
    cases hcl : WoffLib.close extId c6GoodState with
    | ok o =>
      refine c6_compression_monotonicity.1 extId c6GoodState o hcl e ?_
      simp only [c6GoodDir] at he
      rw [hcl] at he
      exact he
    | error err =>
      simp only [c6GoodDir] at he
      rw [hcl] at he
      simp at he
  · exact c6_compression_monotonicity.2.1 extId [97, 98, 99, 100] [1, 2, 3, 4]
      (by decide)
  · exact c6_compression_monotonicity.2.2 extId c6BadState
      ([97, 98, 99, 100],
        ⟨0, { tag := [97, 98, 99, 100], offset := 0, compLength := 8,
              origLength := 4, origChecksum := 0 }, [1, 2, 3, 4, 5, 6, 7, 8]⟩)
      (by decide) (by decide) (Or.inl (by decide))

end Woff

namespace Woff

/-- **C8** (writer tail-padding rule): in every writer output with
metadata and no private data the header's `length` equals
`metaOffset + metaLength` exactly and the metadata block is written with
zero tail padding; when private data follows metadata, the metadata block
is zero-padded to a 4-byte boundary, `privOffset` equals that padded end,
and the file ends at `privOffset + privLength`. -/
theorem c8_writer_tail_padding (ext : Ext) (st : WoffLib.WOFFWriterState)
    (out : WoffLib.WriterOutput) (m : Bytes)
    (hcl : WoffLib.close ext st = .ok out) (hm : st.metadata = some m) :
    (st.privateData = none →
      out.header.length = out.header.metaOffset + out.header.metaLength ∧
      out.metaBlock = m ∧ out.privBlock = []) ∧
    (∀ pd, st.privateData = some pd →
      out.header.privOffset =
        out.header.metaOffset +
          WoffLib.calc4BytePaddedLength out.header.metaLength ∧
      out.metaBlock =
        m ++ List.replicate
          (WoffLib.calc4BytePaddedLength st.metaLength - st.metaLength) 0 ∧
      out.header.length = out.header.privOffset + out.header.privLength ∧
      out.privBlock = pd) := by
  obtain ⟨st', rfl, -, -, -, hmeta, -, hml, hpriv, -⟩ := WoffLib.close_ok_elim hcl
  constructor
  · intro hp
    exact WoffLib.closeOutput_meta_no_priv (hmeta.trans hm) (hpriv.trans hp)
  · intro pd hp
    have h := WoffLib.closeOutput_meta_priv (hmeta.trans hm) (hpriv.trans hp)
    rw [hml] at h
    exact h

/-- C8 witness: concrete one-metadata writer outputs, without and with
private data. -/
theorem c8_writer_tail_padding_witness :
    (c8MetaOut.header.length =
        c8MetaOut.header.metaOffset + c8MetaOut.header.metaLength ∧
      c8MetaOut.metaBlock = [60, 97, 62] ∧ c8MetaOut.privBlock = []) ∧
    (c8PrivOut.header.privOffset =
        c8PrivOut.header.metaOffset +
          WoffLib.calc4BytePaddedLength c8PrivOut.header.metaLength ∧
      c8PrivOut.metaBlock = [60, 97, 62, 0] ∧
      c8PrivOut.header.length =
        c8PrivOut.header.privOffset + c8PrivOut.header.privLength ∧
      c8PrivOut.privBlock = [9, 9]) := by
  constructor
  · exact (c8_writer_tail_padding extId c8MetaState c8MetaOut [60, 97, 62]
      (by decide) (by decide)).1 (by decide)
  · have h := (c8_writer_tail_padding extId c8PrivState c8PrivOut [60, 97, 62]
      (by decide) (by decide)).2 [9, 9] (by decide)
    refine ⟨h.1, ?_, h.2.2.1, h.2.2.2⟩
    rw [h.2.1]
    decide

end Woff

namespace Woff.WoffLib

/-- The 4-byte padded length is a multiple of 4. -/
theorem calc4_mod4 (n : Nat) : calc4BytePaddedLength n % 4 = 0 := by
  simp only [calc4BytePaddedLength]
  omega

/-- A sum of multiples of 4 is a multiple of 4. -/
theorem sum_map_mod4 {α : Type} (f : α → Nat) (hf : ∀ x, f x % 4 = 0) :
    ∀ l : List α, (l.map f).sum % 4 = 0 := by
  intro l
  induction l with
  | nil => rfl
  | cons x xs ih =>
    simp only [List.map_cons, List.sum_cons]
    have := hf x
    omega

/-- The header `closeOutput` emits copies the state's `metaLength`. -/
theorem closeOutput_header_metaLength (st : WOFFWriterState) :
    (closeOutput st).header.metaLength = st.metaLength := rfl

/-- The header `closeOutput` emits copies the state's `metaOrigLength`. -/
theorem closeOutput_header_metaOrigLength (st : WOFFWriterState) :
    (closeOutput st).header.metaOrigLength = st.metaOrigLength := rfl

/-- With metadata present, `metaOffset` is the end of the padded table
data. -/
theorem closeOutput_metaOffset_eq {st : WOFFWriterState} {m : Bytes}
    (hmeta : st.metadata = some m) :
    (closeOutput st).header.metaOffset =
      headerSize + directorySize * st.init.numTables +
      (((sortByLe (fun a b => a.2.index ≤ b.2.index) st.tables).foldl assignOffsets
          ([], headerSize + directorySize * st.init.numTables)).1.map
        (fun p => calc4BytePaddedLength p.2.entry.compLength)).sum := by
  cases hp : st.privateData with
  | none => simp [closeOutput, hmeta, hp]
  | some pd => simp [closeOutput, hmeta, hp]

/-- With metadata present, `metaOffset` is divisible by 4. -/
theorem closeOutput_metaOffset_mod4 {st : WOFFWriterState} {m : Bytes}
    (hmeta : st.metadata = some m) :
    (closeOutput st).header.metaOffset % 4 = 0 := by
  rw [closeOutput_metaOffset_eq hmeta]
  have hsum := sum_map_mod4
    (fun p : Bytes × TableRec => calc4BytePaddedLength p.2.entry.compLength)
    (fun p => calc4_mod4 p.2.entry.compLength)
    ((sortByLe (fun a b => a.2.index ≤ b.2.index) st.tables).foldl assignOffsets
      ([], headerSize + directorySize * st.init.numTables)).1
  simp only [headerSize, directorySize] at hsum ⊢
  omega

end Woff.WoffLib

namespace Woff

/-- `save` on the S3 font reduces, for every external collaborator, to
`close` on `c7State`. -/
theorem c7_save_eq_close (ext : Ext) :
    WoffLib.save ext c7Font true true = WoffLib.close ext (c7State ext) := rfl

end Woff

namespace Woff

/-- **C7** (metadata round trip, scenario S3): the serialised metadata of
`c7Font` is `c7MetaBytes`, which begins with the UTF-8 XML declaration;
for every external collaborator under which `save` succeeds, the emitted
header's `metaOrigLength` is the byte length of the serialised tree,
`metaLength` is the compressed length, and `metaOffset` is divisible by
4; and saving then re-reading under the model collaborators yields
metadata whose root tag is `metadata` with a single `uniqueid` child
carrying `id="com.ex.f.1"`. -/
theorem c7_metadata_roundtrip :
    (WoffLib.strToBytes (WoffLib.xmlDeclaration ++ WoffLib.serializeXmlDoc c7Tree) =
        c7MetaBytes ∧
      c7MetaBytes.take (WoffLib.strToBytes WoffLib.xmlDeclaration).length =
        WoffLib.strToBytes WoffLib.xmlDeclaration) ∧
    (∀ (ext : Ext) (out : WoffLib.WriterOutput),
      WoffLib.save ext c7Font true true = .ok out →
      out.header.metaOrigLength = c7MetaBytes.length ∧
      out.header.metaLength = (ext.deflate c7MetaBytes).length ∧
      out.header.metaOffset % 4 = 0) ∧
    ((WoffLib.save extId c7Font true true).map (fun o =>
        (WoffLib.fontReadMetadata extId o.bytes).map (fun t =>
          (t.tag, t.children.map (fun c => (c.tag, c.attribGet "id" ""))))) =
      .ok (.ok ("metadata", [("uniqueid", "com.ex.f.1")]))) := by
  refine ⟨⟨by decide, by decide⟩, ?_, by decide⟩
  intro ext out hcl
  rw [c7_save_eq_close] at hcl
  obtain ⟨st', rfl, -, -, -, hmeta, hmol, hml, -, -⟩ := WoffLib.close_ok_elim hcl
  refine ⟨?_, ?_, ?_⟩
  · rw [WoffLib.closeOutput_header_metaOrigLength, hmol]
    rfl
  · rw [WoffLib.closeOutput_header_metaLength, hml]
    rfl
  · exact WoffLib.closeOutput_metaOffset_mod4
      (hmeta.trans (rfl : (c7State ext).metadata = some (ext.deflate c7MetaBytes)))

/-- C7 witness: the field equations of the save at the identity codec. -/
theorem c7_metadata_roundtrip_witness :
    c7Out.header.metaOrigLength = c7MetaBytes.length ∧
    c7Out.header.metaLength = (extId.deflate c7MetaBytes).length ∧
    c7Out.header.metaOffset % 4 = 0 :=
  c7_metadata_roundtrip.2.1 extId c7Out (by decide)

end Woff
